import Mathlib

/-!
Verification of the AWS CIEM tool's Relationship Graph Builder and Risk
Scoring Engine (backend/src/analyzers/relationship_builder.py,
backend/src/analyzers/risk_analyzer.py, and the access-path query of
backend/src/api/routes/relationships.py), shallowly embedded in Lean.

Conventions of the embedding:
* Python dicts used as records become structures; optional fields that some
  code paths leave absent become Option fields (absent = none).
* Python dicts used as keyed maps become association lists in insertion
  order (Python dicts preserve insertion order; assignment to an existing
  key keeps its position).  `dictSet` is dict assignment, `dictGet` is
  lookup.
* The Python `set` used for a role's security-group ids is modelled as an
  insertion-ordered duplicate-free list (`setAdd`): only membership and the
  count of distinct members are ever observed by the analyzed code.
* `list.sort(key=..., reverse=True)` (a stable sort) is modelled by the
  stable insertion sort `sortByDesc`, which is extensionally the unique
  stable descending sort.
* The mutable instance attributes `RelationshipBuilder.relationships` and
  `RiskAnalyzer.risk_scores` are threaded through the functions as explicit
  state, so that repeated invocations on one instance can be reasoned about.
* Security-group references carried by a resource are embedded as the list
  of referenced group-id strings.  (The EC2 discoverer actually emits
  records with group_id/group_name fields; the relationship builder
  consumes them as raw ids, and the risk analyzer observes only emptiness
  of the list and the projected group_id, so the id-list embedding is
  faithful for every property considered here.)
* Wall-clock fields (the analysis timestamp) are outside the embedding;
  they are noted where relevant.
-/

/-- Generic helpers: association-list dictionaries in insertion order. -/
def dictGet {α : Type} (m : List (String × α)) (k : String) : Option α :=
  (m.find? (fun p => p.1 == k)).map (fun p => p.2)

/-- Dict assignment: replace in place when the key exists, else append. -/
def dictSet {α : Type} (m : List (String × α)) (k : String) (v : α) :
    List (String × α) :=
  match m with
  | [] => [(k, v)]
  | (k0, v0) :: rest =>
      if k0 == k then (k0, v) :: rest else (k0, v0) :: dictSet rest k v

/-- Update the value at an existing key (no-op when the key is absent);
models mutating a dict entry in place. -/
def dictUpdate {α : Type} (m : List (String × α)) (k : String) (f : α → α) :
    List (String × α) :=
  match m with
  | [] => []
  | (k0, v0) :: rest =>
      if k0 == k then (k0, f v0) :: rest else (k0, v0) :: dictUpdate rest k f

/-- Insertion-ordered set add (models Python set.add observed through
membership and distinct-count). -/
def setAdd (s : List String) (x : String) : List String :=
  if x ∈ s then s else s ++ [x]

/-- Set union with a list of new elements (models set.update). -/
def setUpdate (s : List String) (xs : List String) : List String :=
  xs.foldl setAdd s

/-- Stable insertion step for a descending sort by a numeric key. -/
def insertDesc {α : Type} (key : α → Nat) (x : α) : List α → List α
  | [] => [x]
  | y :: ys => if key y < key x then x :: y :: ys else y :: insertDesc key x ys

/-- Stable descending sort by a numeric key; models Python's stable
`list.sort(key=..., reverse=True)`. -/
def sortByDesc {α : Type} (key : α → Nat) : List α → List α
  | [] => []
  | x :: xs => insertDesc key x (sortByDesc key xs)

/-! ## Data model: discovery records (inputs of both analyzed components) -/

/-- An attached IAM policy record. -/
structure Policy where
  policy_name : String
  policy_arn : String
deriving Repr, DecidableEq

/-- An IAM access key record (only the status is observed). -/
structure AccessKey where
  status : String
deriving Repr, DecidableEq

/-- An IAM user discovery record. -/
structure IamUser where
  username : String
  arn : String
  mfa_enabled : Bool
  is_inactive : Bool
  days_since_login : Option Nat
  access_keys : List AccessKey
  attached_policies : List Policy
deriving Repr, DecidableEq

/-- An IAM role discovery record. -/
structure IamRole where
  role_name : String
  arn : String
  role_type : Option String
  is_admin : Bool
  attached_policies : List Policy
deriving Repr, DecidableEq

/-- The IAM discovery result consumed by both components. -/
structure IamData where
  account_id : Option String
  roles : List IamRole
  users : List IamUser
deriving Repr, DecidableEq

/-- An EC2 instance discovery record (security_groups holds the referenced
group ids). -/
structure Ec2Rec where
  instance_id : String
  name : String
  state : Option String
  is_public : Bool
  security_groups : List String
  iam_instance_profile : Option String
deriving Repr, DecidableEq

/-- A Lambda function discovery record. -/
structure LambdaRec where
  function_name : String
  runtime : Option String
  role : Option String
  is_in_vpc : Bool
  security_groups : List String
deriving Repr, DecidableEq

/-- An S3 bucket discovery record. -/
structure S3Rec where
  bucket_name : String
  is_public : Bool
  encryption_enabled : Bool
deriving Repr, DecidableEq

/-- An RDS instance discovery record. -/
structure RdsRec where
  db_instance_identifier : String
  publicly_accessible : Bool
  encrypted : Bool
  security_groups : List String
deriving Repr, DecidableEq

/-- A risky ingress rule of a security group. -/
structure RiskyRule where
  protocol : Option String
  from_port : Option Int
  to_port : Option Int
  cidr : String
deriving Repr, DecidableEq

/-- A security-group discovery record. -/
structure SgRec where
  group_id : String
  group_name : String
  vpc_id : Option String
  has_internet_access : Bool
  allows_all_traffic : Bool
  risky_rules : List RiskyRule
deriving Repr, DecidableEq

/-- The resource discovery result consumed by both components. -/
structure ResourceData where
  region : Option String
  ec2_instances : List Ec2Rec
  lambda_functions : List LambdaRec
  s3_buckets : List S3Rec
  rds_instances : List RdsRec
  security_groups : List SgRec
deriving Repr, DecidableEq

/-- The configuration surface used by the risk analyzer
(utils/config.py defaults: 90 / 70 / 40, CIS benchmark enabled). -/
structure Settings where
  risk_critical_threshold : Nat := 90
  risk_high_threshold : Nat := 70
  risk_medium_threshold : Nat := 40
  enable_cis_benchmark : Bool := true
deriving Repr, DecidableEq

/-- The settings instance with which the hosting process runs by default. -/
def defaultSettings : Settings := {}

/-! ## Risk Scoring Engine (analyzers/risk_analyzer.py) -/

/-- A risk finding; constant display strings (description, remediation,
compliance framework lists) are not part of the embedding, every field the
analyzed behaviour depends on is. -/
structure Finding where
  risk_id : String
  risk_type : String
  severity : String
  risk_score : Nat
  title : String
  resource_type : String
  resource_id : String
deriving Repr, DecidableEq

/-- The mutable per-instance severity buckets of RiskAnalyzer
(self.risk_scores), initialised to four empty lists in __init__. -/
structure RiskScores where
  critical : List Finding
  high : List Finding
  medium : List Finding
  low : List Finding
deriving Repr, DecidableEq

/-- A fresh RiskAnalyzer instance state. -/
def freshRiskScores : RiskScores := ⟨[], [], [], []⟩

/-- Finding for a user without MFA (score 75, severity high). -/
def mfaFinding (u : IamUser) : Finding :=
  { risk_id := "IAM-USER-MFA-" ++ u.username
    risk_type := "identity"
    severity := "high"
    risk_score := 75
    title := "User without MFA: " ++ u.username
    resource_type := "iam_user"
    resource_id := u.username }

/-- Finding for an inactive user (score 60, severity medium). -/
def inactiveFinding (u : IamUser) : Finding :=
  { risk_id := "IAM-USER-INACTIVE-" ++ u.username
    risk_type := "identity"
    severity := "medium"
    risk_score := 60
    title := "Inactive user: " ++ u.username
    resource_type := "iam_user"
    resource_id := u.username }

/-- Finding for an admin role (score 80, severity high). -/
def adminFinding (r : IamRole) : Finding :=
  { risk_id := "IAM-ROLE-ADMIN-" ++ r.role_name
    risk_type := "identity"
    severity := "high"
    risk_score := 80
    title := "Admin role: " ++ r.role_name
    resource_type := "iam_role"
    resource_id := r.role_name }

/-- Finding for a user with more than one active access key
(score 55, severity medium). -/
def multiKeyFinding (u : IamUser) : Finding :=
  { risk_id := "IAM-USER-MULTIKEY-" ++ u.username
    risk_type := "identity"
    severity := "medium"
    risk_score := 55
    title := "Multiple active access keys: " ++ u.username
    resource_type := "iam_user"
    resource_id := u.username }

/-- RiskAnalyzer.analyze_identity_risks: the four identity checks, appending
their findings in source order. -/
def analyze_identity_risks (iam : IamData) : List Finding :=
  ((iam.users.filter (fun u => !u.mfa_enabled)).map mfaFinding)
    ++ ((iam.users.filter (fun u => u.is_inactive)).map inactiveFinding)
    ++ ((iam.roles.filter (fun r => r.is_admin)).map adminFinding)
    ++ ((iam.users.filter
          (fun u => 1 < (u.access_keys.filter (fun k => k.status == "Active")).length)).map
        multiKeyFinding)

/-- The has_risky_sg flag of the public-EC2 check: the source initialises it
to False and sets it to True inside the loop over the attached security
groups (for every iteration), so it is the emptiness test of that list. -/
def ec2HasRiskySg (inst : Ec2Rec) : Bool :=
  inst.security_groups.foldl (fun _ _ => true) false

/-- Finding for a public EC2 instance; escalated to 90/critical when
has_risky_sg holds, else 70/high. -/
def ec2PublicFinding (inst : Ec2Rec) : Finding :=
  { risk_id := "EC2-PUBLIC-" ++ inst.instance_id
    risk_type := "resource"
    severity := if ec2HasRiskySg inst then "critical" else "high"
    risk_score := if ec2HasRiskySg inst then 90 else 70
    title := "Public EC2 instance: " ++ inst.name
    resource_type := "ec2_instance"
    resource_id := inst.instance_id }

/-- Finding for a public S3 bucket (score 95, severity critical). -/
def s3PublicFinding (b : S3Rec) : Finding :=
  { risk_id := "S3-PUBLIC-" ++ b.bucket_name
    risk_type := "resource"
    severity := "critical"
    risk_score := 95
    title := "Public S3 bucket: " ++ b.bucket_name
    resource_type := "s3_bucket"
    resource_id := b.bucket_name }

/-- Finding for an unencrypted S3 bucket (score 75, severity high). -/
def s3UnencryptedFinding (b : S3Rec) : Finding :=
  { risk_id := "S3-UNENCRYPTED-" ++ b.bucket_name
    risk_type := "resource"
    severity := "high"
    risk_score := 75
    title := "Unencrypted S3 bucket: " ++ b.bucket_name
    resource_type := "s3_bucket"
    resource_id := b.bucket_name }

/-- Finding for a publicly accessible RDS instance
(score 90, severity critical). -/
def rdsPublicFinding (i : RdsRec) : Finding :=
  { risk_id := "RDS-PUBLIC-" ++ i.db_instance_identifier
    risk_type := "resource"
    severity := "critical"
    risk_score := 90
    title := "Public RDS instance: " ++ i.db_instance_identifier
    resource_type := "rds_instance"
    resource_id := i.db_instance_identifier }

/-- Finding for an unencrypted RDS instance (score 75, severity high). -/
def rdsUnencryptedFinding (i : RdsRec) : Finding :=
  { risk_id := "RDS-UNENCRYPTED-" ++ i.db_instance_identifier
    risk_type := "resource"
    severity := "high"
    risk_score := 75
    title := "Unencrypted RDS instance: " ++ i.db_instance_identifier
    resource_type := "rds_instance"
    resource_id := i.db_instance_identifier }

/-- RiskAnalyzer.analyze_resource_risks: the five resource checks,
appending their findings in source order. -/
def analyze_resource_risks (res : ResourceData) : List Finding :=
  ((res.ec2_instances.filter (fun i => i.is_public)).map ec2PublicFinding)
    ++ ((res.s3_buckets.filter (fun b => b.is_public)).map s3PublicFinding)
    ++ ((res.s3_buckets.filter (fun b => !b.encryption_enabled)).map s3UnencryptedFinding)
    ++ ((res.rds_instances.filter (fun i => i.publicly_accessible)).map rdsPublicFinding)
    ++ ((res.rds_instances.filter (fun i => !i.encrypted)).map rdsUnencryptedFinding)

/-- Sensitive ports checked by the network rule. -/
def criticalPorts : List Int := [22, 3389, 1433, 3306, 5432, 27017]

/-- Whether any risky rule of the group exposes a sensitive port (the source
loop sets 95/critical and breaks at the first such rule). -/
def sgHasCriticalPort (sg : SgRec) : Bool :=
  sg.risky_rules.any (fun r =>
    match r.from_port with
    | some p => criticalPorts.contains p
    | none => false)

/-- Finding for a security group with internet access
(85/high, escalated to 95/critical on a sensitive port). -/
def sgInternetFinding (sg : SgRec) : Finding :=
  { risk_id := "SG-INTERNET-" ++ sg.group_id
    risk_type := "network"
    severity := if sgHasCriticalPort sg then "critical" else "high"
    risk_score := if sgHasCriticalPort sg then 95 else 85
    title := "Security group with Internet access: " ++ sg.group_name
    resource_type := "security_group"
    resource_id := sg.group_id }

/-- RiskAnalyzer.analyze_network_risks. -/
def analyze_network_risks (res : ResourceData) : List Finding :=
  (res.security_groups.filter (fun sg => sg.has_internet_access)).map sgInternetFinding

/-- RiskAnalyzer.analyze_compliance_risks: returns the empty list early when
the CIS benchmark is disabled; the benchmark branch itself holds only
placeholder comments and also yields no findings. -/
def analyze_compliance_risks (s : Settings) : List Finding :=
  if !s.enable_cis_benchmark then [] else []

/-- The severity-bucket dispatch of analyze_all (the if/elif chain comparing
a finding score to the three configured thresholds). -/
def bucketFor (s : Settings) (score : Nat) : String :=
  if s.risk_critical_threshold ≤ score then "critical"
  else if s.risk_high_threshold ≤ score then "high"
  else if s.risk_medium_threshold ≤ score then "medium"
  else "low"

/-- Append one finding to its severity bucket of the instance state. -/
def categorizeRisk (s : Settings) (st : RiskScores) (f : Finding) : RiskScores :=
  if s.risk_critical_threshold ≤ f.risk_score then
    { st with critical := st.critical ++ [f] }
  else if s.risk_high_threshold ≤ f.risk_score then
    { st with high := st.high ++ [f] }
  else if s.risk_medium_threshold ≤ f.risk_score then
    { st with medium := st.medium ++ [f] }
  else
    { st with low := st.low ++ [f] }

/-- The per-bucket and total counts reported in risk_summary. -/
structure RiskSummary where
  total_risks : Nat
  critical : Nat
  high : Nat
  medium : Nat
  low : Nat
deriving Repr, DecidableEq

/-- The analysis result dictionary (the wall-clock timestamp field of the
source is outside the embedding). -/
structure AnalysisResults where
  account_id : Option String
  region : Option String
  identity_risks : List Finding
  resource_risks : List Finding
  network_risks : List Finding
  compliance_risks : List Finding
  risk_summary : RiskSummary
  top_risks : List Finding
deriving Repr, DecidableEq

/-- RiskAnalyzer.analyze_all, with the instance state (self.risk_scores)
passed in and returned explicitly.  Compiles the four category lists,
sorts all findings descending by score (stably), appends each to its
severity bucket of the instance state, and reports bucket lengths and the
top ten findings. -/
def analyze_all (s : Settings) (st : RiskScores) (iam : IamData)
    (res : ResourceData) : RiskScores × AnalysisResults :=
  let identity_risks := analyze_identity_risks iam
  let resource_risks := analyze_resource_risks res
  let network_risks := analyze_network_risks res
  let compliance_risks := analyze_compliance_risks s
  let all_risks := identity_risks ++ resource_risks ++ network_risks ++ compliance_risks
  let sorted_risks := sortByDesc (fun f => f.risk_score) all_risks
  let st1 := sorted_risks.foldl (categorizeRisk s) st
  (st1,
    { account_id := iam.account_id
      region := res.region
      identity_risks := identity_risks
      resource_risks := resource_risks
      network_risks := network_risks
      compliance_risks := compliance_risks
      risk_summary :=
        { total_risks := all_risks.length
          critical := st1.critical.length
          high := st1.high.length
          medium := st1.medium.length
          low := st1.low.length }
      top_risks := sorted_risks.take 10 })

/-- An affected-resource entry of the blast radius (EC2 entries carry
is_public, Lambda entries carry is_in_vpc). -/
structure AffectedResource where
  resource_type : String
  resource_id : String
  resource_name : Option String
  is_public : Option Bool
  is_in_vpc : Option Bool
deriving Repr, DecidableEq

/-- The blast-radius result structure. -/
structure BlastRadius where
  identity_arn : String
  affected_resources : List AffectedResource
  permissions : List Policy
  risk_score : Nat
deriving Repr, DecidableEq

/-- The affected-resource entry built for an EC2 instance. -/
def ec2Affected (i : Ec2Rec) : AffectedResource :=
  { resource_type := "ec2_instance"
    resource_id := i.instance_id
    resource_name := some i.name
    is_public := some i.is_public
    is_in_vpc := none }

/-- The affected-resource entry built for a Lambda function. -/
def lambdaAffected (f : LambdaRec) : AffectedResource :=
  { resource_type := "lambda_function"
    resource_id := f.function_name
    resource_name := none
    is_public := none
    is_in_vpc := some f.is_in_vpc }

/-- RiskAnalyzer.calculate_blast_radius: resolve the ARN against roles
first, then users; unresolved ARNs keep the initial empty structure with
score 0; for a role, collect the EC2 instances whose instance profile and
the Lambda functions whose role reference match the role's name; score
min(100, resources*10 + policies*5 + public*20). -/
def calculate_blast_radius (identity_arn : String) (iam : IamData)
    (res : ResourceData) : BlastRadius :=
  match iam.roles.find? (fun r => r.arn == identity_arn) with
  | some role =>
      let affected :=
        ((res.ec2_instances.filter
            (fun i => i.iam_instance_profile == some role.role_name)).map ec2Affected)
          ++ ((res.lambda_functions.filter
                (fun f => f.role == some role.role_name)).map lambdaAffected)
      let resource_count := affected.length
      let policy_count := role.attached_policies.length
      let public_resources :=
        affected.countP (fun r => r.is_public == some true)
      { identity_arn := identity_arn
        affected_resources := affected
        permissions := role.attached_policies
        risk_score :=
          min 100 (resource_count * 10 + policy_count * 5 + public_resources * 20) }
  | none =>
      match iam.users.find? (fun u => u.arn == identity_arn) with
      | some user =>
          let policy_count := user.attached_policies.length
          { identity_arn := identity_arn
            affected_resources := []
            permissions := user.attached_policies
            risk_score := min 100 (policy_count * 5) }
      | none =>
          { identity_arn := identity_arn
            affected_resources := []
            permissions := []
            risk_score := 0 }

/-! ## Relationship Graph Builder (analyzers/relationship_builder.py) -/

/-- A relationship record appended to self.relationships. -/
structure Relationship where
  source : String
  source_type : String
  target : String
  target_type : String
  relationship_type : String
deriving Repr, DecidableEq

/-- A resource_info entry stored under a role in the role map (EC2 entries
carry is_public and security_groups, Lambda entries carry runtime and
security_groups). -/
structure RoleResourceInfo where
  resource_type : String
  resource_id : String
  resource_name : String
  is_public : Option Bool
  runtime : Option String
  security_groups : List String
deriving Repr, DecidableEq

/-- A role map entry (role_map[role_name]); security_groups models the
accumulated Python set of referenced group ids (insertion-ordered,
duplicate-free; the final list(...) conversion is the identity here). -/
structure RoleMapEntry where
  role_name : String
  role_arn : String
  role_type : Option String
  is_admin : Bool
  attached_policies : List Policy
  resources : List RoleResourceInfo
  security_groups : List String
deriving Repr, DecidableEq

/-- The role_map entry seeded for a discovered role. -/
def initRoleEntry (r : IamRole) : RoleMapEntry :=
  { role_name := r.role_name
    role_arn := r.arn
    role_type := r.role_type
    is_admin := r.is_admin
    attached_policies := r.attached_policies
    resources := []
    security_groups := [] }

/-- The resource_info recorded for an EC2 instance under its role. -/
def ec2RoleInfo (i : Ec2Rec) : RoleResourceInfo :=
  { resource_type := "ec2_instance"
    resource_id := i.instance_id
    resource_name := i.name
    is_public := some i.is_public
    runtime := none
    security_groups := i.security_groups }

/-- The resource_info recorded for a Lambda function under its role
(no is_public key). -/
def lambdaRoleInfo (f : LambdaRec) : RoleResourceInfo :=
  { resource_type := "lambda_function"
    resource_id := f.function_name
    resource_name := f.function_name
    is_public := none
    runtime := f.runtime
    security_groups := f.security_groups }

/-- The assumes relationship from a role to one of its resources. -/
def assumesRel (role_name target target_type : String) : Relationship :=
  { source := role_name
    source_type := "iam_role"
    target := target
    target_type := target_type
    relationship_type := "assumes" }

/-- Attach a resource_info to its role entry: append the resource and merge
its security-group ids into the entry's set. -/
def attachToRole (e : RoleMapEntry) (info : RoleResourceInfo)
    (sgs : List String) : RoleMapEntry :=
  { e with
    resources := e.resources ++ [info]
    security_groups := setUpdate e.security_groups sgs }

/-- One EC2 step of _build_role_resource_map: a truthy (non-empty) instance
profile that is a known role key attaches the instance and records an
assumes relationship. -/
def roleMapStepEc2 (acc : List (String × RoleMapEntry) × List Relationship)
    (i : Ec2Rec) : List (String × RoleMapEntry) × List Relationship :=
  match i.iam_instance_profile with
  | none => acc
  | some p =>
      if p ≠ "" ∧ (dictGet acc.1 p).isSome then
        (dictUpdate acc.1 p
           (fun e => attachToRole e (ec2RoleInfo i) i.security_groups),
         acc.2 ++ [assumesRel p i.instance_id "ec2_instance"])
      else acc

/-- The role name extracted from a Lambda's role reference: the trailing
path segment of a slash-separated ARN, else the reference itself. -/
def lambdaRoleName (role_arn : String) : String :=
  if role_arn.contains (Char.ofNat 47) then
    (role_arn.splitOn "/").getLastD role_arn
  else role_arn

/-- One Lambda step of _build_role_resource_map. -/
def roleMapStepLambda (acc : List (String × RoleMapEntry) × List Relationship)
    (f : LambdaRec) : List (String × RoleMapEntry) × List Relationship :=
  match f.role with
  | none => acc
  | some role_arn =>
      if role_arn ≠ "" then
        let role_name := lambdaRoleName role_arn
        if (dictGet acc.1 role_name).isSome then
          (dictUpdate acc.1 role_name
             (fun e => attachToRole e (lambdaRoleInfo f) f.security_groups),
           acc.2 ++ [assumesRel role_name f.function_name "lambda_function"])
        else acc
      else acc

/-- RelationshipBuilder._build_role_resource_map with the relationships
accumulator threaded explicitly: seed every role, then attach EC2 instances
and Lambda functions in discovery order. -/
def build_role_resource_map (iam : IamData) (res : ResourceData)
    (rels : List Relationship) :
    List (String × RoleMapEntry) × List Relationship :=
  let role_map :=
    iam.roles.foldl (fun m r => dictSet m r.role_name (initRoleEntry r)) []
  let acc1 := res.ec2_instances.foldl roleMapStepEc2 (role_map, rels)
  res.lambda_functions.foldl roleMapStepLambda acc1

/-- A resource entry stored under a security group in the sg map. -/
structure SgResourceInfo where
  resource_type : String
  resource_id : String
  resource_name : String
  is_public : Option Bool
  publicly_accessible : Option Bool
  iam_role : Option String
deriving Repr, DecidableEq

/-- A security-group map entry (sg_map[group_id]). -/
structure SgMapEntry where
  group_id : String
  group_name : String
  vpc_id : Option String
  has_internet_access : Bool
  allows_all_traffic : Bool
  resources : List SgResourceInfo
deriving Repr, DecidableEq

/-- The sg_map entry seeded for a separately enumerated security group. -/
def initSgEntry (sg : SgRec) : SgMapEntry :=
  { group_id := sg.group_id
    group_name := sg.group_name
    vpc_id := sg.vpc_id
    has_internet_access := sg.has_internet_access
    allows_all_traffic := sg.allows_all_traffic
    resources := [] }

/-- The permissive-default entry synthesized for a group id seen only by
reference (name = id, no internet access). -/
def defaultSgEntry (sg_id : String) : SgMapEntry :=
  { group_id := sg_id
    group_name := sg_id
    vpc_id := none
    has_internet_access := false
    allows_all_traffic := false
    resources := [] }

/-- The sg-map resource entry for an EC2 instance. -/
def ec2SgInfo (i : Ec2Rec) : SgResourceInfo :=
  { resource_type := "ec2_instance"
    resource_id := i.instance_id
    resource_name := i.name
    is_public := some i.is_public
    publicly_accessible := none
    iam_role := i.iam_instance_profile }

/-- The sg-map resource entry for a Lambda function. -/
def lambdaSgInfo (f : LambdaRec) : SgResourceInfo :=
  { resource_type := "lambda_function"
    resource_id := f.function_name
    resource_name := f.function_name
    is_public := none
    publicly_accessible := none
    iam_role := f.role }

/-- The sg-map resource entry for an RDS instance. -/
def rdsSgInfo (i : RdsRec) : SgResourceInfo :=
  { resource_type := "rds_instance"
    resource_id := i.db_instance_identifier
    resource_name := i.db_instance_identifier
    is_public := none
    publicly_accessible := some i.publicly_accessible
    iam_role := none }

/-- The protected_by relationship from a resource to a security group. -/
def protectedByRel (source source_type sg_id : String) : Relationship :=
  { source := source
    source_type := source_type
    target := sg_id
    target_type := "security_group"
    relationship_type := "protected_by" }

/-- Upsert one referenced group id: create the permissive-default entry when
the id is unseen, append the resource entry, record the protected_by
relationship. -/
def sgMapUpsert (info : SgResourceInfo) (source_type : String)
    (acc : List (String × SgMapEntry) × List Relationship)
    (sg_id : String) : List (String × SgMapEntry) × List Relationship :=
  let m := if (dictGet acc.1 sg_id).isSome then acc.1
           else dictSet acc.1 sg_id (defaultSgEntry sg_id)
  (dictUpdate m sg_id (fun e => { e with resources := e.resources ++ [info] }),
   acc.2 ++ [protectedByRel info.resource_id source_type sg_id])

/-- RelationshipBuilder._build_security_group_map with the relationships
accumulator threaded explicitly: seed enumerated groups, then walk EC2,
Lambda and RDS security-group references in discovery order. -/
def build_security_group_map (res : ResourceData) (rels : List Relationship) :
    List (String × SgMapEntry) × List Relationship :=
  let sg_map :=
    res.security_groups.foldl (fun m sg => dictSet m sg.group_id (initSgEntry sg)) []
  let acc1 := res.ec2_instances.foldl
    (fun acc i => i.security_groups.foldl (sgMapUpsert (ec2SgInfo i) "ec2_instance") acc)
    (sg_map, rels)
  let acc2 := res.lambda_functions.foldl
    (fun acc f => f.security_groups.foldl (sgMapUpsert (lambdaSgInfo f) "lambda_function") acc)
    acc1
  res.rds_instances.foldl
    (fun acc i => i.security_groups.foldl (sgMapUpsert (rdsSgInfo i) "rds_instance") acc)
    acc2

/-- RelationshipBuilder._calculate_role_risk: +50 for an admin role, +20 per
public resource, +15 per (distinct) security group with internet access,
clamped at 100. -/
def calculate_role_risk (role_data : RoleMapEntry)
    (sg_mappings : List (String × SgMapEntry)) : Nat :=
  let r1 := if role_data.is_admin then 50 else 0
  let r2 := role_data.resources.foldl
    (fun acc r => if r.is_public == some true then acc + 20 else acc) r1
  let r3 := role_data.security_groups.foldl
    (fun acc sg_id =>
      match dictGet sg_mappings sg_id with
      | some sg => if sg.has_internet_access then acc + 15 else acc
      | none => acc) r2
  min 100 r3

/-- The security-group summary attached to a consolidated role view. -/
structure SgSummary where
  group_id : String
  group_name : String
  has_internet_access : Bool
  resource_count : Nat
deriving Repr, DecidableEq

/-- One role's row of the consolidated view. -/
structure RoleView where
  role_name : String
  role_arn : String
  role_type : Option String
  is_admin : Bool
  resource_count : Nat
  security_group_count : Nat
  resources_by_type : List (String × List RoleResourceInfo)
  security_groups : List SgSummary
  risk_level : Nat
deriving Repr, DecidableEq

/-- The consolidated (Level 1) view; the source never fills
orphaned_resources. -/
structure ConsolidatedView where
  iam_roles : List RoleView
  orphaned_resources : List RoleResourceInfo
deriving Repr, DecidableEq

/-- Group a role's resources by resource_type, preserving first-seen key
order and per-key append order. -/
def groupByType (resources : List RoleResourceInfo) :
    List (String × List RoleResourceInfo) :=
  resources.foldl
    (fun m r =>
      let m1 := if (dictGet m r.resource_type).isSome then m
                else dictSet m r.resource_type []
      dictUpdate m1 r.resource_type (fun l => l ++ [r]))
    []

/-- The expanded security-group details of a role view (ids missing from
the sg map are skipped). -/
def roleViewSgs (role_data : RoleMapEntry)
    (sg_mappings : List (String × SgMapEntry)) : List SgSummary :=
  role_data.security_groups.foldl
    (fun acc sg_id =>
      match dictGet sg_mappings sg_id with
      | some sg_data =>
          acc ++ [{ group_id := sg_id
                    group_name := sg_data.group_name
                    has_internet_access := sg_data.has_internet_access
                    resource_count := sg_data.resources.length }]
      | none => acc)
    []

/-- One role's consolidated row. -/
def mkRoleView (role_data : RoleMapEntry)
    (sg_mappings : List (String × SgMapEntry)) : RoleView :=
  { role_name := role_data.role_name
    role_arn := role_data.role_arn
    role_type := role_data.role_type
    is_admin := role_data.is_admin
    resource_count := role_data.resources.length
    security_group_count := role_data.security_groups.length
    resources_by_type := groupByType role_data.resources
    security_groups := roleViewSgs role_data sg_mappings
    risk_level := calculate_role_risk role_data sg_mappings }

/-- RelationshipBuilder._build_consolidated_view: one row per role with at
least one resource, sorted descending by risk level (stable). -/
def build_consolidated_view (role_mappings : List (String × RoleMapEntry))
    (sg_mappings : List (String × SgMapEntry)) : ConsolidatedView :=
  let rows := (role_mappings.filter (fun p => p.2.resources ≠ [])).map
    (fun p => mkRoleView p.2 sg_mappings)
  { iam_roles := sortByDesc (fun v => v.risk_level) rows
    orphaned_resources := [] }

/-- RelationshipBuilder._normalize_node_id: the fixed type-to-id prefix
table; unknown types pass through as their own prefix. -/
def normalize_node_id (resource_type : String) (resource_id : String) : String :=
  let pre :=
    if resource_type == "iam_role" then "role"
    else if resource_type == "iam_user" then "user"
    else if resource_type == "ec2_instance" then "ec2"
    else if resource_type == "lambda_function" then "lambda"
    else if resource_type == "s3_bucket" then "s3"
    else if resource_type == "rds_instance" then "rds"
    else if resource_type == "security_group" then "sg"
    else resource_type
  pre ++ "-" ++ resource_id

/-- A visualization graph node; per-type extra keys are Option fields. -/
structure GraphNode where
  id : String
  label : String
  type : String
  group : String
  is_admin : Option Bool := none
  resource_count : Option Nat := none
  has_internet_access : Option Bool := none
  is_public : Option Bool := none
  state : Option String := none
  runtime : Option String := none
  publicly_accessible : Option Bool := none
deriving Repr, DecidableEq

/-- A visualization graph edge. -/
structure GraphEdge where
  source : String
  target : String
  type : String
deriving Repr, DecidableEq

/-- The per-type node counts of the graph stats. -/
structure NodeTypeCounts where
  iam_roles : Nat
  security_groups : Nat
  ec2_instances : Nat
  lambda_functions : Nat
  s3_buckets : Nat
  rds_instances : Nat
deriving Repr, DecidableEq

/-- The graph stats block. -/
structure GraphStats where
  total_nodes : Nat
  total_edges : Nat
  node_types : NodeTypeCounts
deriving Repr, DecidableEq

/-- The node/edge graph emitted for visualization and path queries. -/
structure GraphData where
  nodes : List GraphNode
  edges : List GraphEdge
  stats : GraphStats
deriving Repr, DecidableEq

/-- Append a node unless its id was already added (nodes and the node_ids
set are kept in lockstep, as in the source). -/
def addNode (acc : List GraphNode × List String) (n : GraphNode) :
    List GraphNode × List String :=
  if n.id ∈ acc.2 then acc else (acc.1 ++ [n], acc.2 ++ [n.id])

/-- The synthetic internet node. -/
def internetNode : GraphNode :=
  { id := "internet"
    label := "Internet (0.0.0.0/0)"
    type := "internet"
    group := "external" }

/-- The node-building phases of _build_graph_data before the internet
node: roles with resources, security groups with resources, and every
discovered resource, in source order. -/
def buildGraphNodesAcc (role_mappings : List (String × RoleMapEntry))
    (sg_mappings : List (String × SgMapEntry)) (res : ResourceData) :
    List GraphNode × List String :=
  let acc0 : List GraphNode × List String := ([], [])
  let acc1 := role_mappings.foldl
    (fun acc p =>
      if p.2.resources ≠ [] then
        addNode acc
          { id := normalize_node_id "iam_role" p.1
            label := p.1
            type := "iam_role"
            group := "identity"
            is_admin := some p.2.is_admin
            resource_count := some p.2.resources.length }
      else acc)
    acc0
  let acc2 := sg_mappings.foldl
    (fun acc p =>
      if p.2.resources ≠ [] then
        addNode acc
          { id := normalize_node_id "security_group" p.1
            label := p.2.group_name
            type := "security_group"
            group := "network"
            has_internet_access := some p.2.has_internet_access
            resource_count := some p.2.resources.length }
      else acc)
    acc1
  let acc3 := res.ec2_instances.foldl
    (fun acc i =>
      addNode acc
        { id := normalize_node_id "ec2_instance" i.instance_id
          label := i.name
          type := "ec2_instance"
          group := "compute"
          is_public := some i.is_public
          state := i.state })
    acc2
  let acc4 := res.lambda_functions.foldl
    (fun acc f =>
      addNode acc
        { id := normalize_node_id "lambda_function" f.function_name
          label := f.function_name
          type := "lambda_function"
          group := "compute"
          runtime := f.runtime })
    acc3
  let acc5 := res.s3_buckets.foldl
    (fun acc b =>
      addNode acc
        { id := normalize_node_id "s3_bucket" b.bucket_name
          label := b.bucket_name
          type := "s3_bucket"
          group := "storage"
          is_public := some b.is_public })
    acc4
  let acc6 := res.rds_instances.foldl
    (fun acc i =>
      addNode acc
        { id := normalize_node_id "rds_instance" i.db_instance_identifier
          label := i.db_instance_identifier
          type := "rds_instance"
          group := "database"
          publicly_accessible := some i.publicly_accessible })
    acc5
  acc6

/-- All node-building phases of _build_graph_data: the accumulated nodes
followed by the internet node (appended unconditionally; its id joins the
set). -/
def buildGraphNodes (role_mappings : List (String × RoleMapEntry))
    (sg_mappings : List (String × SgMapEntry)) (res : ResourceData) :
    List GraphNode × List String :=
  let acc6 := buildGraphNodesAcc role_mappings sg_mappings res
  (acc6.1 ++ [internetNode], setAdd acc6.2 "internet")

/-- The edges kept from the relationships accumulator: normalized endpoints
must both be known node ids. -/
def edgesFromRels (rels : List Relationship) (node_ids : List String) :
    List GraphEdge :=
  rels.foldl
    (fun es rel =>
      let source_id := normalize_node_id rel.source_type rel.source
      let target_id := normalize_node_id rel.target_type rel.target
      if source_id ∈ node_ids ∧ target_id ∈ node_ids then
        es ++ [{ source := source_id, target := target_id,
                 type := rel.relationship_type }]
      else es)
    []

/-- The allows_traffic_from edges from internet-exposed security groups to
the internet node. -/
def internetEdges (sg_mappings : List (String × SgMapEntry))
    (node_ids : List String) : List GraphEdge :=
  sg_mappings.foldl
    (fun es p =>
      if p.2.has_internet_access then
        let source_id := normalize_node_id "security_group" p.1
        if source_id ∈ node_ids then
          es ++ [{ source := source_id, target := "internet",
                   type := "allows_traffic_from" }]
        else es
      else es)
    []

/-- RelationshipBuilder._build_graph_data (reads the relationships
accumulator). -/
def build_graph_data (role_mappings : List (String × RoleMapEntry))
    (sg_mappings : List (String × SgMapEntry)) (res : ResourceData)
    (rels : List Relationship) : GraphData :=
  let nodeAcc := buildGraphNodes role_mappings sg_mappings res
  let nodes := nodeAcc.1
  let edges := edgesFromRels rels nodeAcc.2 ++ internetEdges sg_mappings nodeAcc.2
  { nodes := nodes
    edges := edges
    stats :=
      { total_nodes := nodes.length
        total_edges := edges.length
        node_types :=
          { iam_roles := nodes.countP (fun n => n.type == "iam_role")
            security_groups := nodes.countP (fun n => n.type == "security_group")
            ec2_instances := nodes.countP (fun n => n.type == "ec2_instance")
            lambda_functions := nodes.countP (fun n => n.type == "lambda_function")
            s3_buckets := nodes.countP (fun n => n.type == "s3_bucket")
            rds_instances := nodes.countP (fun n => n.type == "rds_instance") } } }

/-- The summary block of a build. -/
structure BuildSummary where
  total_roles : Nat
  total_security_groups : Nat
  total_relationships : Nat
  roles_with_resources : Nat
  security_groups_with_internet : Nat
deriving Repr, DecidableEq

/-- The full result of one build_relationships call. -/
structure BuildResult where
  role_mappings : List (String × RoleMapEntry)
  security_group_mappings : List (String × SgMapEntry)
  consolidated_view : ConsolidatedView
  graph_data : GraphData
  summary : BuildSummary
deriving Repr, DecidableEq

/-- RelationshipBuilder.build_relationships with the instance's
relationships accumulator passed in and returned (a fresh builder starts
from []). -/
def build_relationships (rels0 : List Relationship) (iam : IamData)
    (res : ResourceData) : List Relationship × BuildResult :=
  let acc1 := build_role_resource_map iam res rels0
  let role_mappings := acc1.1
  let acc2 := build_security_group_map res acc1.2
  let sg_mappings := acc2.1
  let rels := acc2.2
  let consolidated := build_consolidated_view role_mappings sg_mappings
  let graph := build_graph_data role_mappings sg_mappings res rels
  (rels,
    { role_mappings := role_mappings
      security_group_mappings := sg_mappings
      consolidated_view := consolidated
      graph_data := graph
      summary :=
        { total_roles := role_mappings.length
          total_security_groups := sg_mappings.length
          total_relationships := rels.length
          roles_with_resources :=
            (role_mappings.map (fun p => p.2)).countP (fun r => !r.resources.isEmpty)
          security_groups_with_internet :=
            (sg_mappings.map (fun p => p.2)).countP (fun sg => sg.has_internet_access) } })

/-! ## Access-path query (api/routes/relationships.py, get_access_path) -/

/-- Neighbor targets of a node.  The source builds an adjacency dict by
appending each edge's (target, type) under its source key in edge order, so
the lookup adjacency.get(u, []) yields exactly the targets of the edges
whose source is u, in edge-list order; the BFS reads only the targets. -/
def adjTargets (edges : List GraphEdge) (u : String) : List String :=
  (edges.filter (fun e => e.source == u)).map (fun e => e.target)

/-- The node universe the BFS visited set can grow into (every enqueued
node beyond the start is some edge's target). -/
def bfsUniverse (edges : List GraphEdge) : List String :=
  edges.map (fun e => e.target)

/-- The neighbors newly added to the visited set while scanning a neighbor
list left to right (duplicates and already-visited nodes are skipped). -/
def collectNew (visited : List String) : List String → List String
  | [] => []
  | nb :: rest =>
      if nb ∈ visited then collectNew visited rest
      else nb :: collectNew (nb :: visited) rest

/-- The neighbor-scan of one BFS iteration: enqueue every not-yet-visited
neighbor with its extended path and mark it visited at enqueue time. -/
def pushNeighbors (path : List String) (nbrs : List String)
    (queue : List (String × List String)) (visited : List String) :
    List (String × List String) × List String :=
  match nbrs with
  | [] => (queue, visited)
  | nb :: rest =>
      if nb ∈ visited then pushNeighbors path rest queue visited
      else pushNeighbors path rest (queue ++ [(nb, path ++ [nb])]) (nb :: visited)

theorem pushNeighbors_eq (path : List String) (nbrs : List String)
    (queue : List (String × List String)) (visited : List String) :
    pushNeighbors path nbrs queue visited
      = (queue ++ (collectNew visited nbrs).map (fun v => (v, path ++ [v])),
         (collectNew visited nbrs).reverse ++ visited) := by
  induction nbrs generalizing queue visited with
  | nil => simp [pushNeighbors, collectNew]
  | cons nb rest ih =>
      by_cases h : nb ∈ visited
      · simp [pushNeighbors, collectNew, h, ih]
      · simp only [pushNeighbors, collectNew, if_neg h, ih]
        simp [List.append_assoc]

theorem mem_collectNew_not_mem {visited : List String} {l : List String}
    {x : String} (hx : x ∈ collectNew visited l) : x ∉ visited := by
  induction l generalizing visited with
  | nil => simp [collectNew] at hx
  | cons nb rest ih =>
      by_cases h : nb ∈ visited
      · rw [collectNew, if_pos h] at hx
        exact ih hx
      · rw [collectNew, if_neg h] at hx
        rcases List.mem_cons.mp hx with rfl | hx2
        · exact h
        · have := ih hx2
          intro hxv
          exact this (List.mem_cons_of_mem _ hxv)

theorem collectNew_nodup (visited : List String) (l : List String) :
    (collectNew visited l).Nodup := by
  induction l generalizing visited with
  | nil => simp [collectNew]
  | cons nb rest ih =>
      by_cases h : nb ∈ visited
      · rw [collectNew, if_pos h]; exact ih visited
      · rw [collectNew, if_neg h]
        refine List.nodup_cons.mpr ⟨?_, ih (nb :: visited)⟩
        intro hmem
        exact mem_collectNew_not_mem hmem (List.mem_cons_self _ _)

theorem collectNew_subset {visited : List String} {l : List String}
    {x : String} (hx : x ∈ collectNew visited l) : x ∈ l := by
  induction l generalizing visited with
  | nil => simp [collectNew] at hx
  | cons nb rest ih =>
      by_cases h : nb ∈ visited
      · rw [collectNew, if_pos h] at hx
        exact List.mem_cons_of_mem _ (ih hx)
      · rw [collectNew, if_neg h] at hx
        rcases List.mem_cons.mp hx with rfl | hx2
        · exact List.mem_cons_self _ _
        · exact List.mem_cons_of_mem _ (ih hx2)

theorem mem_or_mem_collectNew (visited : List String) {l : List String}
    {x : String} (hx : x ∈ l) : x ∈ visited ∨ x ∈ collectNew visited l := by
  induction l generalizing visited with
  | nil => simp at hx
  | cons nb rest ih =>
      by_cases h : nb ∈ visited
      · rw [collectNew, if_pos h]
        rcases List.mem_cons.mp hx with rfl | hx2
        · exact Or.inl h
        · exact ih visited hx2
      · rw [collectNew, if_neg h]
        rcases List.mem_cons.mp hx with rfl | hx2
        · exact Or.inr (List.mem_cons_self _ _)
        · rcases ih (nb :: visited) hx2 with hv | hc
          · rcases List.mem_cons.mp hv with rfl | hv2
            · exact Or.inr (List.mem_cons_self _ _)
            · exact Or.inl hv2
          · exact Or.inr (List.mem_cons_of_mem _ hc)

/-- Counting lemma behind BFS termination: adding the k fresh nodes to the
visited set shrinks the unvisited part of the universe by at least k. -/
theorem visited_growth (U N visited : List String)
    (hU : ∀ x ∈ N, x ∈ U) (hV : ∀ x ∈ N, x ∉ visited) (hnd : N.Nodup) :
    (U.filter (fun x => decide (x ∉ (N.reverse ++ visited)))).length + N.length
      ≤ (U.filter (fun x => decide (x ∉ visited))).length := by
  have hsplit : U.filter (fun x => decide (x ∉ (N.reverse ++ visited)))
      = (U.filter (fun x => decide (x ∉ visited))).filter (fun x => decide (x ∉ N)) := by
    rw [List.filter_filter]
    refine List.filter_congr ?_
    intro x _
    by_cases h1 : x ∈ N <;> by_cases h2 : x ∈ visited <;>
      simp [h1, h2]
  set A := U.filter (fun x => decide (x ∉ visited)) with hA
  have hlen : A.length
      = (A.filter (fun x => decide (x ∈ N))).length
        + (A.filter (fun x => decide (x ∉ N))).length := by
    have := List.length_eq_countP_add_countP (fun x => decide (x ∈ N)) A
    simpa [List.countP_eq_length_filter] using this
  have hcard : N.length ≤ (A.filter (fun x => decide (x ∈ N))).length := by
    have h1 : N.toFinset ⊆ (A.filter (fun x => decide (x ∈ N))).toFinset := by
      intro x hx
      rw [List.mem_toFinset] at hx ⊢
      refine List.mem_filter.mpr ⟨?_, by simpa using hx⟩
      rw [hA]
      exact List.mem_filter.mpr ⟨hU x hx, by simpa using hV x hx⟩
    calc N.length = N.toFinset.card := (List.toFinset_card_of_nodup hnd).symm
      _ ≤ (A.filter (fun x => decide (x ∈ N))).toFinset.card := Finset.card_le_card h1
      _ ≤ (A.filter (fun x => decide (x ∈ N))).length := List.toFinset_card_le _
  rw [hsplit]
  omega

/-- The BFS worklist loop of get_access_path: pop the oldest entry, return
its path on reaching the target, otherwise enqueue the unvisited neighbors
with extended paths.  Termination: each iteration either consumes a queue
entry or permanently marks fresh universe nodes visited. -/
def bfsLoop (edges : List GraphEdge) (target : String)
    (queue : List (String × List String)) (visited : List String) :
    Option (List String) :=
  match queue with
  | [] => none
  | (current, path) :: rest =>
      if current == target then some path
      else
        bfsLoop edges target
          (pushNeighbors path (adjTargets edges current) rest visited).1
          (pushNeighbors path (adjTargets edges current) rest visited).2
termination_by
  2 * ((bfsUniverse edges).filter (fun x => decide (x ∉ visited))).length + queue.length
decreasing_by
  rw [pushNeighbors_eq]
  dsimp only
  have key := visited_growth (bfsUniverse edges)
    (collectNew visited (adjTargets edges current)) visited
    (fun x hx => by
      have hadj := collectNew_subset hx
      rcases List.mem_map.mp hadj with ⟨e, he, rfl⟩
      exact List.mem_map.mpr ⟨e, List.mem_of_mem_filter he, rfl⟩)
    (fun x hx => mem_collectNew_not_mem hx)
    (collectNew_nodup visited (adjTargets edges current))
  simp only [List.length_append, List.length_map, List.length_cons]
  omega

/-- A path-detail entry is either a known graph node's record or the
two-field fallback dict built for an id absent from the node map. -/
inductive NodeInfo where
  | known : GraphNode → NodeInfo
  | unknown : String → NodeInfo
deriving Repr, DecidableEq

/-- One annotated entry of the returned path. -/
structure PathNode where
  info : NodeInfo
  edge_to_next : Option String
deriving Repr, DecidableEq

/-- The node map lookup nodes.get(node_id, fallback); the comprehension
keys nodes by id with the last write winning. -/
def nodeLookup (nodes : List GraphNode) (nid : String) : NodeInfo :=
  match nodes.reverse.find? (fun n => n.id == nid) with
  | some n => NodeInfo.known n
  | none => NodeInfo.unknown nid

/-- The edge type annotated between two consecutive path nodes: the first
matching edge of the edge list, defaulting to connected_to. -/
def edgeToNext (edges : List GraphEdge) (a b : String) : String :=
  match edges.find? (fun e => e.source == a && e.target == b) with
  | some e => e.type
  | none => "connected_to"

/-- The path_details construction: every node of the path in order, all but
the last annotated with the edge type toward its successor. -/
def annotatePath (graph : GraphData) : List String → List PathNode
  | [] => []
  | [a] => [{ info := nodeLookup graph.nodes a, edge_to_next := none }]
  | a :: b :: rest =>
      { info := nodeLookup graph.nodes a
        edge_to_next := some (edgeToNext graph.edges a b) }
        :: annotatePath graph (b :: rest)

/-- The response of the access-path endpoint: a found path with its hop
count, or the no-path marker. -/
inductive AccessPathResult where
  | found : String → String → Nat → List PathNode → AccessPathResult
  | noPath : String → String → AccessPathResult
deriving Repr, DecidableEq

/-- get_access_path of api/routes/relationships.py: BFS from the source
over the built graph's directed edges, starting with the source visited
and queued with the singleton path. -/
def get_access_path (graph : GraphData) (source target : String) :
    AccessPathResult :=
  match bfsLoop graph.edges target [(source, [source])] [source] with
  | some path =>
      AccessPathResult.found source target (path.length - 1)
        (annotatePath graph path)
  | none => AccessPathResult.noPath source target

/-- Specification predicate: p is a nonempty walk from s to t along the
directed edges (consecutive nodes joined by some edge). -/
def PathFrom (edges : List GraphEdge) (s t : String) (p : List String) : Prop :=
  p.head? = some s ∧ p.getLast? = some t
    ∧ p.Chain' (fun a b => b ∈ adjTargets edges a)

theorem pathFrom_ne_nil {edges : List GraphEdge} {s t : String}
    {p : List String} (h : PathFrom edges s t p) : p ≠ [] := by
  intro hnil
  rw [hnil] at h
  simp [PathFrom] at h

theorem pathFrom_one_le {edges : List GraphEdge} {s t : String}
    {p : List String} (h : PathFrom edges s t p) : 1 ≤ p.length := by
  have hne := pathFrom_ne_nil h
  cases p with
  | nil => simp at hne
  | cons a rest => simp

theorem pathFrom_two_le {edges : List GraphEdge} {s t : String}
    {p : List String} (h : PathFrom edges s t p) (hst : s ≠ t) :
    2 ≤ p.length := by
  match p with
  | [] => exact absurd rfl (pathFrom_ne_nil h)
  | [a] =>
      exfalso
      obtain ⟨h1, h2, h3⟩ := h
      simp at h1 h2
      exact hst (h1 ▸ h2)
  | a :: b :: rest => simp

theorem pathFrom_snoc {edges : List GraphEdge} {s u : String}
    {q : List String} (h : PathFrom edges s u q) (hlen : 2 ≤ q.length) :
    ∃ q2 w, q = q2 ++ [u] ∧ PathFrom edges s w q2
      ∧ u ∈ adjTargets edges w := by
  rcases List.eq_nil_or_concat q with rfl | ⟨q2, b, rfl⟩
  · simp at hlen
  · simp only [List.concat_eq_append] at h hlen ⊢
    obtain ⟨h1, h2, h3⟩ := h
    have hb : b = u := by
      rw [List.getLast?_append] at h2
      simpa using h2
    subst hb
    have hq2 : q2 ≠ [] := by
      intro hnil
      subst hnil
      simp at hlen
    obtain ⟨a, l, rfl⟩ := List.exists_cons_of_ne_nil hq2
    have has : a = s := by
      simpa using h1
    subst has
    obtain ⟨c1, c2, hcr⟩ := List.chain'_append.mp h3
    have hw : (a :: l).getLast? = some ((a :: l).getLast (List.cons_ne_nil a l)) :=
      List.getLast?_eq_getLast _ _
    refine ⟨a :: l, (a :: l).getLast (List.cons_ne_nil a l), rfl, ⟨rfl, hw, c1⟩, ?_⟩
    exact hcr _ hw _ rfl

theorem closed_reach {edges : List GraphEdge} {V : List String}
    (hcl : ∀ v ∈ V, ∀ w ∈ adjTargets edges v, w ∈ V) :
    ∀ (q : List String) (s u : String), s ∈ V → PathFrom edges s u q → u ∈ V := by
  intro q
  induction q with
  | nil =>
      intro s u hs h
      exact absurd rfl (pathFrom_ne_nil h)
  | cons a rest ih =>
      intro s u hs h
      obtain ⟨h1, h2, h3⟩ := h
      have has : a = s := by simpa using h1
      subst has
      cases rest with
      | nil =>
          have : u = a := by simpa using h2.symm
          subst this
          exact hs
      | cons b rest2 =>
          have hR : b ∈ adjTargets edges a := (List.chain'_cons.mp h3).1
          have hbV : b ∈ V := hcl a hs b hR
          refine ih b u hbV ⟨rfl, ?_, (List.chain'_cons.mp h3).2⟩
          simpa using h2

theorem pathFrom_extend {edges : List GraphEdge} {source current v : String}
    {path : List String} (h : PathFrom edges source current path)
    (hv : v ∈ adjTargets edges current) :
    PathFrom edges source v (path ++ [v]) := by
  obtain ⟨h1, h2, h3⟩ := h
  refine ⟨?_, ?_, ?_⟩
  · rw [List.head?_append, h1]
    rfl
  · rw [List.getLast?_append]
    rfl
  · refine List.Chain'.append h3 (List.chain'_singleton _) ?_
    intro x hx y hy
    rw [h2] at hx
    simp at hx hy
    rw [← hx, ← hy]
    exact hv

theorem pairwise_le_const (c : Nat) {l : List Nat} (h : ∀ x ∈ l, x = c) :
    l.Pairwise (· ≤ ·) := by
  induction l with
  | nil => exact List.Pairwise.nil
  | cons a rest ih =>
      refine List.pairwise_cons.mpr ⟨?_, ih (fun x hx => h x (List.mem_cons_of_mem _ hx))⟩
      intro b hb
      rw [h a (List.mem_cons_self _ _), h b (List.mem_cons_of_mem _ hb)]

/-- The invariant maintained by the BFS worklist loop: queue entries carry
valid shortest paths from the source, queued nodes are visited, queued path
lengths are nondecreasing and differ by at most one, every visited node is
either still queued or fully expanded, unvisited nodes admit no path
shorter than any queued one, and the target, once visited, is queued. -/
structure BfsInv (edges : List GraphEdge) (source target : String)
    (queue : List (String × List String)) (visited : List String) : Prop where
  path_valid : ∀ pr ∈ queue, PathFrom edges source pr.1 pr.2
  node_vis : ∀ pr ∈ queue, pr.1 ∈ visited
  src_vis : source ∈ visited
  sorted : (queue.map (fun pr => pr.2.length)).Pairwise (· ≤ ·)
  band : ∀ pr, queue.head? = some pr → ∀ qr ∈ queue, qr.2.length ≤ pr.2.length + 1
  closed : ∀ v ∈ visited,
    (∃ pr ∈ queue, pr.1 = v) ∨ ∀ w ∈ adjTargets edges v, w ∈ visited
  minimal : ∀ pr ∈ queue, ∀ q, PathFrom edges source pr.1 q → pr.2.length ≤ q.length
  far : ∀ u, u ∉ visited → ∀ q, PathFrom edges source u q →
    ∀ pr ∈ queue, pr.2.length ≤ q.length
  target_q : target ∈ visited → ∃ pr ∈ queue, pr.1 = target

/-- Any path reaching a node still unvisited after the head entry is popped
is strictly longer than the head entry's path. -/
theorem step_lower_bound {edges : List GraphEdge} {source target current : String}
    {path : List String} {rest : List (String × List String)}
    {visited : List String}
    (inv : BfsInv edges source target ((current, path) :: rest) visited)
    {u : String} (hu : u ∉ visited) {q : List String}
    (hq : PathFrom edges source u q) : path.length + 1 ≤ q.length := by
  have hus : source ≠ u := by
    intro h
    exact hu (h ▸ inv.src_vis)
  obtain ⟨q2, w, rfl, hq2, hadj⟩ := pathFrom_snoc hq (pathFrom_two_le hq hus)
  have hq2len : path.length ≤ q2.length := by
    by_cases hwv : w ∈ visited
    · rcases inv.closed w hwv with ⟨pr, hpr, hpr1⟩ | hcl
      · have hmin := inv.minimal pr hpr q2 (by rw [hpr1]; exact hq2)
        rcases List.mem_cons.mp hpr with rfl | hpr2
        · exact hmin
        · have hs := inv.sorted
          rw [List.map_cons] at hs
          have hle : path.length ≤ pr.2.length :=
            List.rel_of_pairwise_cons hs (List.mem_map_of_mem _ hpr2)
          omega
      · exact absurd (hcl u hadj) hu
    · exact inv.far w hwv q2 hq2 (current, path) (List.mem_cons_self _ _)
  have : (q2 ++ [u]).length = q2.length + 1 := by simp
  omega

/-- One non-returning BFS iteration preserves the loop invariant. -/
theorem BfsInv.step {edges : List GraphEdge} {source target current : String}
    {path : List String} {rest : List (String × List String)}
    {visited : List String}
    (inv : BfsInv edges source target ((current, path) :: rest) visited)
    (hne : current ≠ target) :
    BfsInv edges source target
      (rest ++ (collectNew visited (adjTargets edges current)).map
        (fun v => (v, path ++ [v])))
      ((collectNew visited (adjTargets edges current)).reverse ++ visited) := by
  set N := collectNew visited (adjTargets edges current) with hN
  have hcur : PathFrom edges source current path :=
    inv.path_valid (current, path) (List.mem_cons_self _ _)
  have hnewpath : ∀ v ∈ N, PathFrom edges source v (path ++ [v]) := by
    intro v hv
    exact pathFrom_extend hcur (collectNew_subset hv)
  have hNnotvis : ∀ v ∈ N, v ∉ visited := fun v hv => mem_collectNew_not_mem hv
  have hband := inv.band (current, path) rfl
  have hs := inv.sorted
  rw [List.map_cons] at hs
  have hheadmin : ∀ pr ∈ rest, path.length ≤ pr.2.length := by
    intro pr hpr
    exact List.rel_of_pairwise_cons hs (List.mem_map_of_mem _ hpr)
  refine ⟨?_, ?_, ?_, ?_, ?_, ?_, ?_, ?_, ?_⟩
  · intro pr hpr
    rcases List.mem_append.mp hpr with h1 | h1
    · exact inv.path_valid pr (List.mem_cons_of_mem _ h1)
    · obtain ⟨v, hv, rfl⟩ := List.mem_map.mp h1
      exact hnewpath v hv
  · intro pr hpr
    rcases List.mem_append.mp hpr with h1 | h1
    · exact List.mem_append.mpr (Or.inr (inv.node_vis pr (List.mem_cons_of_mem _ h1)))
    · obtain ⟨v, hv, rfl⟩ := List.mem_map.mp h1
      exact List.mem_append.mpr (Or.inl (List.mem_reverse.mpr hv))
  · exact List.mem_append.mpr (Or.inr inv.src_vis)
  · rw [List.map_append]
    refine List.pairwise_append.mpr ⟨hs.of_cons, ?_, ?_⟩
    · refine pairwise_le_const (path.length + 1) ?_
      intro x hx
      rw [List.map_map] at hx
      obtain ⟨v, hv, rfl⟩ := List.mem_map.mp hx
      simp
    · intro x hx y hy
      rw [List.map_map] at hy
      obtain ⟨pr, hpr, rfl⟩ := List.mem_map.mp hx
      obtain ⟨v, hv, rfl⟩ := List.mem_map.mp hy
      have h1 := hband pr (List.mem_cons_of_mem _ hpr)
      dsimp only at h1
      simp only [Function.comp, List.length_append, List.length_cons,
        List.length_nil]
      omega
  · have hub : ∀ qr ∈ rest ++ N.map (fun v => (v, path ++ [v])),
        qr.2.length ≤ path.length + 1 := by
      intro qr hqr
      rcases List.mem_append.mp hqr with h1 | h1
      · exact hband qr (List.mem_cons_of_mem _ h1)
      · obtain ⟨v, hv, rfl⟩ := List.mem_map.mp h1
        simp
    intro pr0 hpr0 qr hqr
    have h1 := hub qr hqr
    have h2 : path.length ≤ pr0.2.length := by
      cases rest with
      | nil =>
          simp only [List.nil_append] at hpr0
          have hpr0m : pr0 ∈ N.map (fun v => (v, path ++ [v])) :=
            List.mem_of_mem_head? hpr0
          obtain ⟨v, hv, rfl⟩ := List.mem_map.mp hpr0m
          simp
      | cons r rest2 =>
          have hpr0r : pr0 = r := by
            simp only [List.cons_append, List.head?_cons] at hpr0
            exact (Option.some_inj.mp hpr0).symm
          rw [hpr0r]
          exact hheadmin r (List.mem_cons_self _ _)
    omega
  · intro v hv
    rcases List.mem_append.mp hv with h1 | h1
    · have hvN : v ∈ N := List.mem_reverse.mp h1
      exact Or.inl ⟨(v, path ++ [v]),
        List.mem_append.mpr (Or.inr (List.mem_map_of_mem _ hvN)), rfl⟩
    · rcases inv.closed v h1 with ⟨pr, hpr, hpr1⟩ | hcl
      · rcases List.mem_cons.mp hpr with rfl | hpr2
        · refine Or.inr ?_
          intro w hw
          have hw2 : w ∈ adjTargets edges current := by
            rw [← hpr1] at hw
            exact hw
          rcases mem_or_mem_collectNew visited hw2 with hw3 | hw4
          · exact List.mem_append.mpr (Or.inr hw3)
          · exact List.mem_append.mpr (Or.inl (List.mem_reverse.mpr hw4))
        · exact Or.inl ⟨pr, List.mem_append.mpr (Or.inl hpr2), hpr1⟩
      · exact Or.inr (fun w hw => List.mem_append.mpr (Or.inr (hcl w hw)))
  · intro pr hpr q hq
    rcases List.mem_append.mp hpr with h1 | h1
    · exact inv.minimal pr (List.mem_cons_of_mem _ h1) q hq
    · obtain ⟨v, hv, rfl⟩ := List.mem_map.mp h1
      have hlb := step_lower_bound inv (hNnotvis v hv) hq
      simpa using hlb
  · intro u hu q hq pr hpr
    have hu2 : u ∉ visited := fun h => hu (List.mem_append.mpr (Or.inr h))
    rcases List.mem_append.mp hpr with h1 | h1
    · exact inv.far u hu2 q hq pr (List.mem_cons_of_mem _ h1)
    · obtain ⟨v, hv, rfl⟩ := List.mem_map.mp h1
      have hlb := step_lower_bound inv hu2 hq
      simpa using hlb
  · intro ht
    rcases List.mem_append.mp ht with h1 | h1
    · have hvN : target ∈ N := List.mem_reverse.mp h1
      exact ⟨(target, path ++ [target]),
        List.mem_append.mpr (Or.inr (List.mem_map_of_mem _ hvN)), rfl⟩
    · obtain ⟨pr, hpr, hpr1⟩ := inv.target_q h1
      rcases List.mem_cons.mp hpr with rfl | hpr2
      · exact absurd hpr1 hne
      · exact ⟨pr, List.mem_append.mpr (Or.inl hpr2), hpr1⟩

/-- The BFS start state satisfies the loop invariant. -/
theorem bfsInit (edges : List GraphEdge) (source target : String) :
    BfsInv edges source target [(source, [source])] [source] := by
  refine ⟨?_, ?_, ?_, ?_, ?_, ?_, ?_, ?_, ?_⟩
  · intro pr hpr
    rw [List.mem_singleton.mp hpr]
    exact ⟨rfl, rfl, List.chain'_singleton _⟩
  · intro pr hpr
    rw [List.mem_singleton.mp hpr]
    exact List.mem_singleton.mpr rfl
  · exact List.mem_singleton.mpr rfl
  · simp
  · intro pr hpr0 qr hqr
    rw [List.mem_singleton.mp hqr]
    simp at hpr0
    rw [← hpr0]
    simp
  · intro v hv
    exact Or.inl ⟨(source, [source]), List.mem_singleton.mpr rfl,
      (List.mem_singleton.mp hv).symm⟩
  · intro pr hpr q hq
    rw [List.mem_singleton.mp hpr] at hq ⊢
    exact pathFrom_one_le hq
  · intro u hu q hq pr hpr
    rw [List.mem_singleton.mp hpr]
    exact pathFrom_one_le hq
  · intro ht
    exact ⟨(source, [source]), List.mem_singleton.mpr rfl,
      (List.mem_singleton.mp ht).symm⟩

/-- Total correctness of the BFS worklist loop: from an invariant state it
returns a shortest path from the source to the target when one exists and
none exactly when the target is unreachable. -/
theorem bfsLoop_correct (edges : List GraphEdge) (source target : String) :
    ∀ (queue : List (String × List String)) (visited : List String),
      BfsInv edges source target queue visited →
      (∃ p, bfsLoop edges target queue visited = some p
        ∧ PathFrom edges source target p
        ∧ ∀ q, PathFrom edges source target q → p.length ≤ q.length)
      ∨ (bfsLoop edges target queue visited = none
        ∧ ∀ q, ¬ PathFrom edges source target q) := by
  intro queue visited
  induction queue, visited using bfsLoop.induct edges target with
  | case1 visited =>
      intro inv
      right
      refine ⟨by rw [bfsLoop], ?_⟩
      intro q hq
      have hcl : ∀ v ∈ visited, ∀ w ∈ adjTargets edges v, w ∈ visited := by
        intro v hv
        rcases inv.closed v hv with ⟨pr, hpr, hx⟩ | h2
        · simp at hpr
        · exact h2
      have htv : target ∈ visited := closed_reach hcl q source target inv.src_vis hq
      obtain ⟨pr, hpr, hx⟩ := inv.target_q htv
      simp at hpr
  | case2 visited current path rest hbeq =>
      intro inv
      left
      have hct : current = target := eq_of_beq hbeq
      refine ⟨path, ?_, ?_, ?_⟩
      · rw [bfsLoop]
        simp [hbeq]
      · have hpv := inv.path_valid (current, path) (List.mem_cons_self _ _)
        rw [← hct]
        exact hpv
      · intro q hq
        exact inv.minimal (current, path) (List.mem_cons_self _ _) q
          (by rw [hct]; exact hq)
  | case3 visited current path rest hbeq ih =>
      intro inv
      have hct : current ≠ target := fun h => hbeq (by rw [h]; exact beq_self_eq_true _)
      have hstep := inv.step hct
      rw [bfsLoop]
      simp only [hbeq, if_false, Bool.false_eq_true]
      exact ih (by
        rw [pushNeighbors_eq]
        exact hstep)

/-- C5: for every graph and every pair of node ids, the access-path query
(a total function here, hence terminating even on cyclic edge lists)
either returns a found result whose path is a valid edge walk from source
to target of minimum hop count, with path_length equal to that hop count
and the nodes annotated in order by annotatePath (the first matching edge's
type toward each successor), or returns the no-path result, exactly when no
edge walk from source to target exists. -/
theorem get_access_path_correct (graph : GraphData) (source target : String) :
    (∃ ids, get_access_path graph source target
        = AccessPathResult.found source target (ids.length - 1)
            (annotatePath graph ids)
      ∧ PathFrom graph.edges source target ids
      ∧ ∀ q, PathFrom graph.edges source target q → ids.length ≤ q.length)
    ∨ (get_access_path graph source target
        = AccessPathResult.noPath source target
      ∧ ¬ ∃ q, PathFrom graph.edges source target q) := by
  rcases bfsLoop_correct graph.edges source target [(source, [source])] [source]
      (bfsInit graph.edges source target) with ⟨p, hp, hv, hm⟩ | ⟨hp, hn⟩
  · left
    refine ⟨p, ?_, hv, hm⟩
    rw [get_access_path, hp]
  · right
    refine ⟨?_, ?_⟩
    · rw [get_access_path, hp]
    · rintro ⟨q, hq⟩
      exact hn q hq

/-- C10: querying the access path from any id to itself returns a found
path holding the single node with path length 0, for every graph, also
when the id is absent from the graph's nodes and edges. -/
theorem get_access_path_self (graph : GraphData) (s : String) :
    get_access_path graph s s
      = AccessPathResult.found s s 0
          [{ info := nodeLookup graph.nodes s, edge_to_next := none }] := by
  have h : bfsLoop graph.edges s [(s, [s])] [s] = some [s] := by
    rw [bfsLoop]
    simp
  rw [get_access_path, h]
  simp [annotatePath]

/-- Every finding any category check can emit has severity critical exactly
when its score reaches 90, and scores at most 100 (the severities and
scores are fixed per rule). -/
theorem mem_analysis_score_bounds {s : Settings} {iam : IamData}
    {res : ResourceData} {f : Finding}
    (hf : f ∈ analyze_identity_risks iam ++ analyze_resource_risks res
        ++ analyze_network_risks res ++ analyze_compliance_risks s) :
    (f.severity = "critical" ↔ 90 ≤ f.risk_score) ∧ f.risk_score ≤ 100 := by
  simp only [List.mem_append] at hf
  rcases hf with ((hf | hf) | hf) | hf
  · unfold analyze_identity_risks at hf
    simp only [List.mem_append] at hf
    rcases hf with ((hf | hf) | hf) | hf <;>
      obtain ⟨x, hx, rfl⟩ := List.mem_map.mp hf <;>
        simp [mfaFinding, inactiveFinding, adminFinding, multiKeyFinding]
  · unfold analyze_resource_risks at hf
    simp only [List.mem_append] at hf
    rcases hf with (((hf | hf) | hf) | hf) | hf
    · obtain ⟨x, hx, rfl⟩ := List.mem_map.mp hf
      by_cases h : ec2HasRiskySg x <;> simp [ec2PublicFinding, h]
    all_goals
      obtain ⟨x, hx, rfl⟩ := List.mem_map.mp hf
      simp [s3PublicFinding, s3UnencryptedFinding, rdsPublicFinding,
        rdsUnencryptedFinding]
  · obtain ⟨x, hx, rfl⟩ := List.mem_map.mp hf
    by_cases h : sgHasCriticalPort x <;> simp [sgInternetFinding, h]
  · unfold analyze_compliance_risks at hf
    split at hf <;> simp at hf

/-- C9: the blast-radius score always equals min(100, affected*10 +
policies*5 + publicAffected*20) computed over the returned result's own
lists, hence lies in [0,100], and every finding the analyzer synthesizes
also scores within [0,100]. -/
theorem blast_radius_score_clamped (identity_arn : String) (iam : IamData)
    (res : ResourceData) (s : Settings) :
    ((calculate_blast_radius identity_arn iam res).risk_score
        = min 100
            ((calculate_blast_radius identity_arn iam res).affected_resources.length * 10
              + (calculate_blast_radius identity_arn iam res).permissions.length * 5
              + (calculate_blast_radius identity_arn iam res).affected_resources.countP
                  (fun r => r.is_public == some true) * 20)
      ∧ (calculate_blast_radius identity_arn iam res).risk_score ≤ 100)
    ∧ ∀ f ∈ analyze_identity_risks iam ++ analyze_resource_risks res
          ++ analyze_network_risks res ++ analyze_compliance_risks s,
        f.risk_score ≤ 100 := by
  refine ⟨?_, fun f hf => (mem_analysis_score_bounds hf).2⟩
  unfold calculate_blast_radius
  cases hr : iam.roles.find? (fun r => r.arn == identity_arn) with
  | some role => simp
  | none =>
      cases hu : iam.users.find? (fun u => u.arn == identity_arn) with
      | some user => simp
      | none => simp

/-- C4: an ARN matching no role ARN and no user ARN yields the empty
blast-radius structure with score 0 (no exception path exists), and an ARN
matching some role resolves through the role branch, so the user list is
irrelevant to the result. -/
theorem blast_radius_not_found_and_role_priority (identity_arn : String)
    (iam : IamData) (res : ResourceData) :
    ((∀ r ∈ iam.roles, r.arn ≠ identity_arn) →
      (∀ u ∈ iam.users, u.arn ≠ identity_arn) →
      calculate_blast_radius identity_arn iam res
        = { identity_arn := identity_arn
            affected_resources := []
            permissions := []
            risk_score := 0 })
    ∧ ((∃ r ∈ iam.roles, r.arn = identity_arn) →
      calculate_blast_radius identity_arn iam res
        = calculate_blast_radius identity_arn { iam with users := [] } res) := by
  constructor
  · intro hr hu
    unfold calculate_blast_radius
    rw [List.find?_eq_none.mpr (fun x hx => by simpa using hr x hx),
      List.find?_eq_none.mpr (fun x hx => by simpa using hu x hx)]
  · intro hex
    have hsome : (iam.roles.find? (fun r => r.arn == identity_arn)).isSome := by
      rw [List.find?_isSome]
      obtain ⟨r, hr, harn⟩ := hex
      exact ⟨r, hr, by simpa using harn⟩
    obtain ⟨role, hrole⟩ := Option.isSome_iff_exists.mp hsome
    unfold calculate_blast_radius
    rw [hrole]

/-- Closed instance for the C4 theorem: a two-identity account and an ARN
matching neither, then an ARN matching the role. -/
theorem blast_radius_not_found_and_role_priority_witness :
    calculate_blast_radius "arn:aws:iam::1:role/other"
        { account_id := none
          roles := [{ role_name := "r1", arn := "arn:aws:iam::1:role/r1",
                      role_type := none, is_admin := false,
                      attached_policies := [] }]
          users := [{ username := "u1", arn := "arn:aws:iam::1:user/u1",
                      mfa_enabled := true, is_inactive := false,
                      days_since_login := none, access_keys := [],
                      attached_policies := [] }] }
        { region := none, ec2_instances := [], lambda_functions := [],
          s3_buckets := [], rds_instances := [], security_groups := [] }
      = { identity_arn := "arn:aws:iam::1:role/other"
          affected_resources := []
          permissions := []
          risk_score := 0 }
    ∧ calculate_blast_radius "arn:aws:iam::1:role/r1"
        { account_id := none
          roles := [{ role_name := "r1", arn := "arn:aws:iam::1:role/r1",
                      role_type := none, is_admin := false,
                      attached_policies := [] }]
          users := [{ username := "u1", arn := "arn:aws:iam::1:role/r1",
                      mfa_enabled := true, is_inactive := false,
                      days_since_login := none, access_keys := [],
                      attached_policies := [] }] }
        { region := none, ec2_instances := [], lambda_functions := [],
          s3_buckets := [], rds_instances := [], security_groups := [] }
      = calculate_blast_radius "arn:aws:iam::1:role/r1"
          { account_id := none
            roles := [{ role_name := "r1", arn := "arn:aws:iam::1:role/r1",
                        role_type := none, is_admin := false,
                        attached_policies := [] }]
            users := [] }
          { region := none, ec2_instances := [], lambda_functions := [],
            s3_buckets := [], rds_instances := [], security_groups := [] } :=
  ⟨(blast_radius_not_found_and_role_priority "arn:aws:iam::1:role/other"
      { account_id := none
        roles := [{ role_name := "r1", arn := "arn:aws:iam::1:role/r1",
                    role_type := none, is_admin := false,
                    attached_policies := [] }]
        users := [{ username := "u1", arn := "arn:aws:iam::1:user/u1",
                    mfa_enabled := true, is_inactive := false,
                    days_since_login := none, access_keys := [],
                    attached_policies := [] }] }
      { region := none, ec2_instances := [], lambda_functions := [],
        s3_buckets := [], rds_instances := [], security_groups := [] }).1
    (by decide) (by decide),
   (blast_radius_not_found_and_role_priority "arn:aws:iam::1:role/r1"
      { account_id := none
        roles := [{ role_name := "r1", arn := "arn:aws:iam::1:role/r1",
                    role_type := none, is_admin := false,
                    attached_policies := [] }]
        users := [{ username := "u1", arn := "arn:aws:iam::1:role/r1",
                    mfa_enabled := true, is_inactive := false,
                    days_since_login := none, access_keys := [],
                    attached_policies := [] }] }
      { region := none, ec2_instances := [], lambda_functions := [],
        s3_buckets := [], rds_instances := [], security_groups := [] }).2
    (by decide)⟩

/-- The C1 failing input: a public EC2 instance attached to exactly one
security group, which is enumerated with no internet access and no risky
rules. -/
def c1Resources : ResourceData :=
  { region := none
    ec2_instances := [{ instance_id := "i-1", name := "web", state := none,
                        is_public := true, security_groups := ["sg-1"],
                        iam_instance_profile := none }]
    lambda_functions := []
    s3_buckets := []
    rds_instances := []
    security_groups := [{ group_id := "sg-1", group_name := "quiet",
                          vpc_id := none, has_internet_access := false,
                          allows_all_traffic := false, risky_rules := [] }] }

/-- C1 (code bug): on c1Resources no security group has unrestricted
ingress, yet the sole public-compute finding is escalated to 90/critical,
because the source sets has_risky_sg for any attached group instead of
cross-referencing the group data. -/
theorem ec2_public_escalation_bug :
    (∀ sg ∈ c1Resources.security_groups,
      sg.has_internet_access = false ∧ sg.risky_rules = [])
    ∧ analyze_resource_risks c1Resources
        = [{ risk_id := "EC2-PUBLIC-i-1", risk_type := "resource",
             severity := "critical", risk_score := 90,
             title := "Public EC2 instance: web",
             resource_type := "ec2_instance", resource_id := "i-1" }] := by
  constructor
  · decide
  · rfl

theorem insertDesc_perm {α : Type} (key : α → Nat) (x : α) (l : List α) :
    (insertDesc key x l).Perm (x :: l) := by
  induction l with
  | nil => exact List.Perm.refl _
  | cons y ys ih =>
      rw [insertDesc]
      by_cases h : key y < key x
      · rw [if_pos h]
      · rw [if_neg h]
        exact List.Perm.trans (ih.cons y) (List.Perm.swap x y ys)

theorem sortByDesc_perm {α : Type} (key : α → Nat) (l : List α) :
    (sortByDesc key l).Perm l := by
  induction l with
  | nil => exact List.Perm.refl _
  | cons x xs ih =>
      rw [sortByDesc]
      exact List.Perm.trans (insertDesc_perm key x (sortByDesc key xs)) (ih.cons x)

/-- The severity-bucket fold appends each finding to exactly the bucket
selected by its score against the thresholds. -/
theorem foldl_categorize (s : Settings) (l : List Finding) (st : RiskScores) :
    l.foldl (categorizeRisk s) st
      = { critical := st.critical
            ++ l.filter (fun f => bucketFor s f.risk_score == "critical")
          high := st.high
            ++ l.filter (fun f => bucketFor s f.risk_score == "high")
          medium := st.medium
            ++ l.filter (fun f => bucketFor s f.risk_score == "medium")
          low := st.low
            ++ l.filter (fun f => bucketFor s f.risk_score == "low") } := by
  induction l generalizing st with
  | nil =>
      cases st
      simp
  | cons f rest ih =>
      rw [List.foldl_cons, ih]
      by_cases h1 : s.risk_critical_threshold ≤ f.risk_score
      · simp [categorizeRisk, bucketFor, h1]
      · by_cases h2 : s.risk_high_threshold ≤ f.risk_score
        · simp [categorizeRisk, bucketFor, h1, h2]
        · by_cases h3 : s.risk_medium_threshold ≤ f.risk_score
          · simp [categorizeRisk, bucketFor, h1, h2, h3]
          · simp [categorizeRisk, bucketFor, h1, h2, h3]

/-- Every score lands in one of the four buckets. -/
theorem bucketFor_mem (s : Settings) (score : Nat) :
    bucketFor s score = "critical" ∨ bucketFor s score = "high"
      ∨ bucketFor s score = "medium" ∨ bucketFor s score = "low" := by
  unfold bucketFor
  by_cases h1 : s.risk_critical_threshold ≤ score
  · simp [h1]
  · by_cases h2 : s.risk_high_threshold ≤ score
    · simp [h1, h2]
    · by_cases h3 : s.risk_medium_threshold ≤ score
      · simp [h1, h2, h3]
      · simp [h1, h2, h3]

/-- The four bucket filters partition any finding list by count. -/
theorem filter_bucket_lengths (s : Settings) (l : List Finding) :
    (l.filter (fun f => bucketFor s f.risk_score == "critical")).length
      + (l.filter (fun f => bucketFor s f.risk_score == "high")).length
      + (l.filter (fun f => bucketFor s f.risk_score == "medium")).length
      + (l.filter (fun f => bucketFor s f.risk_score == "low")).length
      = l.length := by
  induction l with
  | nil => simp
  | cons f rest ih =>
      simp only [List.filter_cons, List.length_cons]
      rcases bucketFor_mem s f.risk_score with h | h | h | h <;>
        · rw [h]
          simp
          omega

/-- C2: under the default configuration every finding the analyzer emits
has severity critical exactly when its score reaches the critical
threshold; analyze_all's severity buckets are exactly the four filters of
the sorted finding list by bucketFor (a function of the score alone, so
equal scores always share a bucket), every score falls in one of the four
buckets, and the bucket counts sum to the reported total. -/
theorem analyze_severity_partition (iam : IamData) (res : ResourceData) :
    (∀ f ∈ analyze_identity_risks iam ++ analyze_resource_risks res
        ++ analyze_network_risks res ++ analyze_compliance_risks defaultSettings,
      (f.severity = "critical"
        ↔ defaultSettings.risk_critical_threshold ≤ f.risk_score))
    ∧ (analyze_all defaultSettings freshRiskScores iam res).1
        = { critical := (sortByDesc (fun f => f.risk_score)
              (analyze_identity_risks iam ++ analyze_resource_risks res
                ++ analyze_network_risks res
                ++ analyze_compliance_risks defaultSettings)).filter
              (fun f => bucketFor defaultSettings f.risk_score == "critical")
            high := (sortByDesc (fun f => f.risk_score)
              (analyze_identity_risks iam ++ analyze_resource_risks res
                ++ analyze_network_risks res
                ++ analyze_compliance_risks defaultSettings)).filter
              (fun f => bucketFor defaultSettings f.risk_score == "high")
            medium := (sortByDesc (fun f => f.risk_score)
              (analyze_identity_risks iam ++ analyze_resource_risks res
                ++ analyze_network_risks res
                ++ analyze_compliance_risks defaultSettings)).filter
              (fun f => bucketFor defaultSettings f.risk_score == "medium")
            low := (sortByDesc (fun f => f.risk_score)
              (analyze_identity_risks iam ++ analyze_resource_risks res
                ++ analyze_network_risks res
                ++ analyze_compliance_risks defaultSettings)).filter
              (fun f => bucketFor defaultSettings f.risk_score == "low") }
    ∧ (∀ score : Nat, bucketFor defaultSettings score = "critical"
        ∨ bucketFor defaultSettings score = "high"
        ∨ bucketFor defaultSettings score = "medium"
        ∨ bucketFor defaultSettings score = "low")
    ∧ (analyze_all defaultSettings freshRiskScores iam res).2.risk_summary.critical
        + (analyze_all defaultSettings freshRiskScores iam res).2.risk_summary.high
        + (analyze_all defaultSettings freshRiskScores iam res).2.risk_summary.medium
        + (analyze_all defaultSettings freshRiskScores iam res).2.risk_summary.low
        = (analyze_all defaultSettings freshRiskScores iam res).2.risk_summary.total_risks := by
  refine ⟨?_, ?_, fun score => bucketFor_mem defaultSettings score, ?_⟩
  · intro f hf
    exact (mem_analysis_score_bounds hf).1
  · simp only [analyze_all]
    rw [foldl_categorize]
    simp [freshRiskScores]
  · simp only [analyze_all]
    rw [foldl_categorize]
    simp only [freshRiskScores, List.nil_append]
    have hp := (sortByDesc_perm (fun f : Finding => f.risk_score)
      (analyze_identity_risks iam ++ analyze_resource_risks res
        ++ analyze_network_risks res
        ++ analyze_compliance_risks defaultSettings)).length_eq
    have hb := filter_bucket_lengths defaultSettings
      (sortByDesc (fun f : Finding => f.risk_score)
        (analyze_identity_risks iam ++ analyze_resource_risks res
          ++ analyze_network_risks res
          ++ analyze_compliance_risks defaultSettings))
    omega

/-- Folds whose step only appends to the relationship accumulator factor
over the initial accumulator. -/
theorem foldl_rels_split {M A : Type}
    (f : M × List Relationship → A → M × List Relationship)
    (hf : ∀ m r x, f (m, r) x = ((f (m, []) x).1, r ++ (f (m, []) x).2)) :
    ∀ (l : List A) (m : M) (r : List Relationship),
      (l.foldl f (m, r)).1 = (l.foldl f (m, [])).1
        ∧ (l.foldl f (m, r)).2 = r ++ (l.foldl f (m, [])).2 := by
  intro l
  induction l with
  | nil =>
      intro m r
      simp
  | cons x xs ih =>
      intro m r
      rw [List.foldl_cons, List.foldl_cons, hf m r x, hf m [] x]
      simp only [List.nil_append]
      obtain ⟨h1, h2⟩ := ih (f (m, []) x).1 (r ++ (f (m, []) x).2)
      obtain ⟨h3, h4⟩ := ih (f (m, []) x).1 ((f (m, []) x).2)
      constructor
      · rw [h1, h3]
      · rw [h2, h4]
        simp [List.append_assoc]

theorem roleMapStepEc2_split (m : List (String × RoleMapEntry))
    (r : List Relationship) (i : Ec2Rec) :
    roleMapStepEc2 (m, r) i
      = ((roleMapStepEc2 (m, []) i).1, r ++ (roleMapStepEc2 (m, []) i).2) := by
  cases hip : i.iam_instance_profile with
  | none => simp [roleMapStepEc2, hip]
  | some p =>
      simp only [roleMapStepEc2, hip]
      split <;> simp

theorem roleMapStepLambda_split (m : List (String × RoleMapEntry))
    (r : List Relationship) (f : LambdaRec) :
    roleMapStepLambda (m, r) f
      = ((roleMapStepLambda (m, []) f).1, r ++ (roleMapStepLambda (m, []) f).2) := by
  cases hr : f.role with
  | none => simp [roleMapStepLambda, hr]
  | some role_arn =>
      simp only [roleMapStepLambda, hr]
      split
      · split <;> simp
      · simp

theorem sgMapUpsert_split (info : SgResourceInfo) (st : String)
    (m : List (String × SgMapEntry)) (r : List Relationship) (sg_id : String) :
    sgMapUpsert info st (m, r) sg_id
      = ((sgMapUpsert info st (m, []) sg_id).1,
         r ++ (sgMapUpsert info st (m, []) sg_id).2) := by
  unfold sgMapUpsert
  simp

/-- Pair-level restatement of foldl_rels_split. -/
theorem foldl_rels_split_st {M A : Type}
    (f : M × List Relationship → A → M × List Relationship)
    (hf : ∀ m r x, f (m, r) x = ((f (m, []) x).1, r ++ (f (m, []) x).2))
    (l : List A) (st : M × List Relationship) :
    (l.foldl f st).1 = (l.foldl f (st.1, [])).1
      ∧ (l.foldl f st).2 = st.2 ++ (l.foldl f (st.1, [])).2 :=
  foldl_rels_split f hf l st.1 st.2

theorem build_role_resource_map_split (iam : IamData) (res : ResourceData)
    (rels : List Relationship) :
    (build_role_resource_map iam res rels).1
        = (build_role_resource_map iam res []).1
      ∧ (build_role_resource_map iam res rels).2
        = rels ++ (build_role_resource_map iam res []).2 := by
  unfold build_role_resource_map
  dsimp only
  set m0 := iam.roles.foldl (fun m r => dictSet m r.role_name (initRoleEntry r)) []
    with hm0
  obtain ⟨he1, he2⟩ := foldl_rels_split roleMapStepEc2 roleMapStepEc2_split
    res.ec2_instances m0 rels
  obtain ⟨ha1, ha2⟩ := foldl_rels_split_st roleMapStepLambda roleMapStepLambda_split
    res.lambda_functions (res.ec2_instances.foldl roleMapStepEc2 (m0, rels))
  obtain ⟨hb1, hb2⟩ := foldl_rels_split_st roleMapStepLambda roleMapStepLambda_split
    res.lambda_functions (res.ec2_instances.foldl roleMapStepEc2 (m0, []))
  rw [he1] at ha1 ha2
  constructor
  · rw [ha1, hb1]
  · rw [ha2, hb2, he2]
    simp [List.append_assoc]

theorem sgFoldEc2_split (m : List (String × SgMapEntry)) (r : List Relationship)
    (i : Ec2Rec) :
    i.security_groups.foldl (sgMapUpsert (ec2SgInfo i) "ec2_instance") (m, r)
      = ((i.security_groups.foldl (sgMapUpsert (ec2SgInfo i) "ec2_instance") (m, [])).1,
         r ++ (i.security_groups.foldl (sgMapUpsert (ec2SgInfo i) "ec2_instance") (m, [])).2) := by
  obtain ⟨h1, h2⟩ := foldl_rels_split (sgMapUpsert (ec2SgInfo i) "ec2_instance")
    (fun m r x => sgMapUpsert_split (ec2SgInfo i) "ec2_instance" m r x)
    i.security_groups m r
  exact Prod.ext h1 h2

theorem sgFoldLambda_split (m : List (String × SgMapEntry)) (r : List Relationship)
    (f : LambdaRec) :
    f.security_groups.foldl (sgMapUpsert (lambdaSgInfo f) "lambda_function") (m, r)
      = ((f.security_groups.foldl (sgMapUpsert (lambdaSgInfo f) "lambda_function") (m, [])).1,
         r ++ (f.security_groups.foldl (sgMapUpsert (lambdaSgInfo f) "lambda_function") (m, [])).2) := by
  obtain ⟨h1, h2⟩ := foldl_rels_split (sgMapUpsert (lambdaSgInfo f) "lambda_function")
    (fun m r x => sgMapUpsert_split (lambdaSgInfo f) "lambda_function" m r x)
    f.security_groups m r
  exact Prod.ext h1 h2

theorem sgFoldRds_split (m : List (String × SgMapEntry)) (r : List Relationship)
    (i : RdsRec) :
    i.security_groups.foldl (sgMapUpsert (rdsSgInfo i) "rds_instance") (m, r)
      = ((i.security_groups.foldl (sgMapUpsert (rdsSgInfo i) "rds_instance") (m, [])).1,
         r ++ (i.security_groups.foldl (sgMapUpsert (rdsSgInfo i) "rds_instance") (m, [])).2) := by
  obtain ⟨h1, h2⟩ := foldl_rels_split (sgMapUpsert (rdsSgInfo i) "rds_instance")
    (fun m r x => sgMapUpsert_split (rdsSgInfo i) "rds_instance" m r x)
    i.security_groups m r
  exact Prod.ext h1 h2

theorem build_security_group_map_split (res : ResourceData)
    (rels : List Relationship) :
    (build_security_group_map res rels).1
        = (build_security_group_map res []).1
      ∧ (build_security_group_map res rels).2
        = rels ++ (build_security_group_map res []).2 := by
  unfold build_security_group_map
  dsimp only
  set sg0 := res.security_groups.foldl
    (fun m sg => dictSet m sg.group_id (initSgEntry sg)) [] with hsg0
  obtain ⟨he1, he2⟩ := foldl_rels_split
    (fun acc i => i.security_groups.foldl (sgMapUpsert (ec2SgInfo i) "ec2_instance") acc)
    (fun m r x => sgFoldEc2_split m r x) res.ec2_instances sg0 rels
  obtain ⟨ha1, ha2⟩ := foldl_rels_split_st
    (fun acc f => f.security_groups.foldl (sgMapUpsert (lambdaSgInfo f) "lambda_function") acc)
    (fun m r x => sgFoldLambda_split m r x) res.lambda_functions
    (res.ec2_instances.foldl
      (fun acc i => i.security_groups.foldl (sgMapUpsert (ec2SgInfo i) "ec2_instance") acc)
      (sg0, rels))
  obtain ⟨hb1, hb2⟩ := foldl_rels_split_st
    (fun acc f => f.security_groups.foldl (sgMapUpsert (lambdaSgInfo f) "lambda_function") acc)
    (fun m r x => sgFoldLambda_split m r x) res.lambda_functions
    (res.ec2_instances.foldl
      (fun acc i => i.security_groups.foldl (sgMapUpsert (ec2SgInfo i) "ec2_instance") acc)
      (sg0, []))
  rw [he1] at ha1 ha2
  obtain ⟨hc1, hc2⟩ := foldl_rels_split_st
    (fun acc i => i.security_groups.foldl (sgMapUpsert (rdsSgInfo i) "rds_instance") acc)
    (fun m r x => sgFoldRds_split m r x) res.rds_instances
    (res.lambda_functions.foldl
      (fun acc f => f.security_groups.foldl (sgMapUpsert (lambdaSgInfo f) "lambda_function") acc)
      (res.ec2_instances.foldl
        (fun acc i => i.security_groups.foldl (sgMapUpsert (ec2SgInfo i) "ec2_instance") acc)
        (sg0, rels)))
  obtain ⟨hd1, hd2⟩ := foldl_rels_split_st
    (fun acc i => i.security_groups.foldl (sgMapUpsert (rdsSgInfo i) "rds_instance") acc)
    (fun m r x => sgFoldRds_split m r x) res.rds_instances
    (res.lambda_functions.foldl
      (fun acc f => f.security_groups.foldl (sgMapUpsert (lambdaSgInfo f) "lambda_function") acc)
      (res.ec2_instances.foldl
        (fun acc i => i.security_groups.foldl (sgMapUpsert (ec2SgInfo i) "ec2_instance") acc)
        (sg0, [])))
  rw [ha1] at hc1 hc2
  rw [hb1] at hd1 hd2
  constructor
  · rw [hc1, hd1]
  · rw [hc2, hd2, ha2, hb2, he2]
    simp [List.append_assoc]

/-- A build call appends its (input-determined) relationships to whatever
the instance accumulator already holds. -/
theorem build_relationships_split (rels0 : List Relationship) (iam : IamData)
    (res : ResourceData) :
    (build_relationships rels0 iam res).1
        = rels0 ++ (build_relationships [] iam res).1
      ∧ (build_relationships rels0 iam res).2.summary.total_relationships
        = rels0.length
          + (build_relationships [] iam res).2.summary.total_relationships := by
  obtain ⟨hr1, hr2⟩ := build_role_resource_map_split iam res rels0
  obtain ⟨hs1, hs2⟩ := build_security_group_map_split res
    (build_role_resource_map iam res rels0).2
  obtain ⟨ht1, ht2⟩ := build_security_group_map_split res
    (build_role_resource_map iam res []).2
  have hrels : (build_security_group_map res (build_role_resource_map iam res rels0).2).2
      = rels0 ++ (build_security_group_map res (build_role_resource_map iam res []).2).2 := by
    rw [hs2, hr2, ht2]
    simp [List.append_assoc]
  constructor
  · exact hrels
  · show (build_security_group_map res (build_role_resource_map iam res rels0).2).2.length = _
    rw [hrels]
    simp
    rfl

/-- C3 (amended): both components are deterministic functions of the input
and instance state, but the instance state is not reset between calls: a
second build on the same builder instance appends the same relationships
again and so doubles total_relationships, and a second analyze on the same
analyzer instance doubles every severity-bucket count while the per-call
finding total is unchanged. -/
theorem repeated_invocation_accumulates (iam : IamData) (res : ResourceData) :
    (build_relationships (build_relationships [] iam res).1 iam
        res).2.summary.total_relationships
      = 2 * (build_relationships [] iam res).2.summary.total_relationships
    ∧ (analyze_all defaultSettings
          (analyze_all defaultSettings freshRiskScores iam res).1 iam
          res).2.risk_summary.critical
        = 2 * (analyze_all defaultSettings freshRiskScores iam
            res).2.risk_summary.critical
    ∧ (analyze_all defaultSettings
          (analyze_all defaultSettings freshRiskScores iam res).1 iam
          res).2.risk_summary.high
        = 2 * (analyze_all defaultSettings freshRiskScores iam
            res).2.risk_summary.high
    ∧ (analyze_all defaultSettings
          (analyze_all defaultSettings freshRiskScores iam res).1 iam
          res).2.risk_summary.medium
        = 2 * (analyze_all defaultSettings freshRiskScores iam
            res).2.risk_summary.medium
    ∧ (analyze_all defaultSettings
          (analyze_all defaultSettings freshRiskScores iam res).1 iam
          res).2.risk_summary.low
        = 2 * (analyze_all defaultSettings freshRiskScores iam
            res).2.risk_summary.low
    ∧ (analyze_all defaultSettings
          (analyze_all defaultSettings freshRiskScores iam res).1 iam
          res).2.risk_summary.total_risks
        = (analyze_all defaultSettings freshRiskScores iam
            res).2.risk_summary.total_risks := by
  refine ⟨?_, ?_⟩
  · obtain ⟨hsp1, hsp2⟩ :=
      build_relationships_split (build_relationships [] iam res).1 iam res
    have hlen : (build_relationships [] iam res).2.summary.total_relationships
        = (build_relationships [] iam res).1.length := rfl
    omega
  · simp only [analyze_all, foldl_categorize, freshRiskScores]
    simp [List.length_append]
    omega

/-- Concrete one-role, one-instance input for the C3 counterexample. -/
def c3Iam : IamData :=
  { account_id := none
    roles := [{ role_name := "app", arn := "arn:aws:iam::1:role/app",
                role_type := none, is_admin := false,
                attached_policies := [] }]
    users := [] }

/-- Concrete resource input for the C3 counterexample. -/
def c3Res : ResourceData :=
  { region := none
    ec2_instances := [{ instance_id := "i-9", name := "api", state := none,
                        is_public := false, security_groups := [],
                        iam_instance_profile := some "app" }]
    lambda_functions := []
    s3_buckets := []
    rds_instances := []
    security_groups := [] }

/-- C3 counterexample: invoking build_relationships twice on the same
builder instance with identical inputs yields a different result the
second time (total_relationships and the edge list double), refuting
byte-identical output across repeated runs on one instance. -/
theorem repeated_invocation_differs :
    (build_relationships (build_relationships [] c3Iam c3Res).1 c3Iam c3Res).2
      ≠ (build_relationships [] c3Iam c3Res).2 := by
  decide

theorem foldl_preserve {A B : Type} (P : A → Prop) (f : A → B → A)
    (h : ∀ a b, P a → P (f a b)) :
    ∀ (l : List B) (a : A), P a → P (l.foldl f a) := by
  intro l
  induction l with
  | nil => intro a ha; exact ha
  | cons x xs ih => intro a ha; exact ih (f a x) (h a x ha)

theorem setAdd_mem_self (l : List String) (x : String) : x ∈ setAdd l x := by
  unfold setAdd
  split
  · assumption
  · simp

theorem addNode_sub (acc : List GraphNode × List String) (n : GraphNode)
    (h : ∀ x ∈ acc.2, x ∈ acc.1.map (fun nd => nd.id)) :
    ∀ x ∈ (addNode acc n).2, x ∈ (addNode acc n).1.map (fun nd => nd.id) := by
  unfold addNode
  split
  · exact h
  · intro x hx
    rcases List.mem_append.mp hx with h1 | h1
    · simp only [List.map_append]
      exact List.mem_append.mpr (Or.inl (h x h1))
    · simp only [List.map_append]
      refine List.mem_append.mpr (Or.inr ?_)
      simpa using h1

/-- foldl preservation specialised to the node/id-set subset property. -/
theorem foldl_sub_preserve {B : Type}
    (f : List GraphNode × List String → B → List GraphNode × List String)
    (h : ∀ a b, (∀ x ∈ a.2, x ∈ a.1.map (fun nd => nd.id)) →
      ∀ x ∈ (f a b).2, x ∈ (f a b).1.map (fun nd => nd.id))
    (l : List B) (a : List GraphNode × List String)
    (ha : ∀ x ∈ a.2, x ∈ a.1.map (fun nd => nd.id)) :
    ∀ x ∈ (l.foldl f a).2, x ∈ (l.foldl f a).1.map (fun nd => nd.id) :=
  foldl_preserve
    (fun acc => ∀ x ∈ acc.2, x ∈ acc.1.map (fun nd => nd.id)) f h l a ha

/-- Every id in the accumulated node-id set is the id of an accumulated
node. -/
theorem buildGraphNodesAcc_sub (rm : List (String × RoleMapEntry))
    (sm : List (String × SgMapEntry)) (res : ResourceData) :
    ∀ x ∈ (buildGraphNodesAcc rm sm res).2,
      x ∈ (buildGraphNodesAcc rm sm res).1.map (fun nd => nd.id) := by
  unfold buildGraphNodesAcc
  dsimp only
  apply foldl_sub_preserve
  · intro a b ha
    exact addNode_sub a _ ha
  apply foldl_sub_preserve
  · intro a b ha
    exact addNode_sub a _ ha
  apply foldl_sub_preserve
  · intro a b ha
    exact addNode_sub a _ ha
  apply foldl_sub_preserve
  · intro a b ha
    exact addNode_sub a _ ha
  apply foldl_sub_preserve
  · intro a b ha
    dsimp only
    split
    · exact addNode_sub a _ ha
    · exact ha
  apply foldl_sub_preserve
  · intro a b ha
    dsimp only
    split
    · exact addNode_sub a _ ha
    · exact ha
  intro x hx
  simp at hx

/-- Every id in the final node-id set is the id of an emitted node. -/
theorem buildGraphNodes_sub (rm : List (String × RoleMapEntry))
    (sm : List (String × SgMapEntry)) (res : ResourceData) :
    ∀ x ∈ (buildGraphNodes rm sm res).2,
      x ∈ (buildGraphNodes rm sm res).1.map (fun nd => nd.id) := by
  unfold buildGraphNodes
  dsimp only
  intro x hx
  unfold setAdd at hx
  simp only [List.map_append]
  split at hx
  · exact List.mem_append.mpr (Or.inl (buildGraphNodesAcc_sub rm sm res x hx))
  · rcases List.mem_append.mp hx with h1 | h1
    · exact List.mem_append.mpr (Or.inl (buildGraphNodesAcc_sub rm sm res x h1))
    · refine List.mem_append.mpr (Or.inr ?_)
      simpa [internetNode] using h1

theorem edgesFromRels_closed (rels : List Relationship) (ids : List String) :
    ∀ e ∈ edgesFromRels rels ids, e.source ∈ ids ∧ e.target ∈ ids := by
  unfold edgesFromRels
  apply foldl_preserve
    (fun acc : List GraphEdge => ∀ e ∈ acc, e.source ∈ ids ∧ e.target ∈ ids)
  · intro a rel ha
    dsimp only
    split
    · intro e he
      rcases List.mem_append.mp he with h1 | h1
      · exact ha e h1
      · have he2 := List.mem_singleton.mp h1
        rw [he2]
        constructor
        · exact (by assumption : _ ∈ ids ∧ _ ∈ ids).1
        · exact (by assumption : _ ∈ ids ∧ _ ∈ ids).2
    · exact ha
  · intro e he
    simp at he

theorem internetEdges_closed (sm : List (String × SgMapEntry))
    (ids : List String) (hint : "internet" ∈ ids) :
    ∀ e ∈ internetEdges sm ids, e.source ∈ ids ∧ e.target ∈ ids := by
  unfold internetEdges
  apply foldl_preserve
    (fun acc : List GraphEdge => ∀ e ∈ acc, e.source ∈ ids ∧ e.target ∈ ids)
  · intro a p ha
    dsimp only
    split
    · split
      · intro e he
        rcases List.mem_append.mp he with h1 | h1
        · exact ha e h1
        · have he2 := List.mem_singleton.mp h1
          rw [he2]
          exact ⟨by assumption, hint⟩
      · exact ha
    · exact ha
  · intro e he
    simp at he

/-- Every edge build_graph_data emits has both normalized endpoints in the
emitted node set. -/
theorem build_graph_data_closed (rm : List (String × RoleMapEntry))
    (sm : List (String × SgMapEntry)) (res : ResourceData)
    (rels : List Relationship) :
    ∀ e ∈ (build_graph_data rm sm res rels).edges,
      e.source ∈ (build_graph_data rm sm res rels).nodes.map (fun nd => nd.id)
      ∧ e.target ∈ (build_graph_data rm sm res rels).nodes.map (fun nd => nd.id) := by
  intro e he
  have hsub := buildGraphNodes_sub rm sm res
  have hint : "internet" ∈ (buildGraphNodes rm sm res).2 := by
    unfold buildGraphNodes
    dsimp only
    exact setAdd_mem_self _ _
  have he2 : e ∈ edgesFromRels rels (buildGraphNodes rm sm res).2
      ++ internetEdges sm (buildGraphNodes rm sm res).2 := he
  have hgoal : e.source ∈ (buildGraphNodes rm sm res).2
      ∧ e.target ∈ (buildGraphNodes rm sm res).2 := by
    rcases List.mem_append.mp he2 with h1 | h1
    · exact edgesFromRels_closed rels _ e h1
    · exact internetEdges_closed sm _ hint e h1
  exact ⟨hsub e.source hgoal.1, hsub e.target hgoal.2⟩

/-- C6: every edge of the graph emitted by build_relationships has both
its source id and its target id among the emitted node ids; relationships
with an unresolved endpoint are dropped by the membership filter, never
failing the build (the builder is a total function). -/
theorem build_relationships_edges_closed (rels0 : List Relationship)
    (iam : IamData) (res : ResourceData) :
    ∀ e ∈ (build_relationships rels0 iam res).2.graph_data.edges,
      e.source ∈ (build_relationships rels0 iam res).2.graph_data.nodes.map
        (fun nd => nd.id)
      ∧ e.target ∈ (build_relationships rels0 iam res).2.graph_data.nodes.map
        (fun nd => nd.id) :=
  build_graph_data_closed
    (build_role_resource_map iam res rels0).1
    (build_security_group_map res (build_role_resource_map iam res rels0).2).1
    res
    (build_security_group_map res (build_role_resource_map iam res rels0).2).2

/-- Closed instance for the C6 theorem: the assumes edge emitted for a
role-owned instance has both endpoints among the node ids. -/
theorem build_relationships_edges_closed_witness :
    ({ source := "role-app", target := "ec2-i-9", type := "assumes" } :
        GraphEdge).source
      ∈ (build_relationships [] c3Iam c3Res).2.graph_data.nodes.map
        (fun nd => nd.id)
    ∧ ({ source := "role-app", target := "ec2-i-9", type := "assumes" } :
        GraphEdge).target
      ∈ (build_relationships [] c3Iam c3Res).2.graph_data.nodes.map
        (fun nd => nd.id) :=
  build_relationships_edges_closed [] c3Iam c3Res
    { source := "role-app", target := "ec2-i-9", type := "assumes" }
    (by decide)

theorem dictGet_cons {α : Type} (k0 : String) (v0 : α)
    (rest : List (String × α)) (k : String) :
    dictGet ((k0, v0) :: rest) k
      = if k0 = k then some v0 else dictGet rest k := by
  by_cases h : k0 = k <;> simp [dictGet, List.find?_cons, h]

theorem dictGet_dictSet_self {α : Type} (m : List (String × α)) (k : String)
    (v : α) : dictGet (dictSet m k v) k = some v := by
  induction m with
  | nil => simp [dictSet, dictGet_cons]
  | cons p rest ih =>
      obtain ⟨k0, v0⟩ := p
      rw [dictSet]
      by_cases h : k0 = k
      · rw [if_pos (by simpa using h), dictGet_cons, if_pos h]
      · rw [if_neg (by simpa using h), dictGet_cons, if_neg h]
        exact ih

theorem dictGet_dictSet_ne {α : Type} (m : List (String × α)) (k1 k : String)
    (v : α) (h : k1 ≠ k) : dictGet (dictSet m k1 v) k = dictGet m k := by
  induction m with
  | nil => simp [dictSet, dictGet_cons, dictGet, h]
  | cons p rest ih =>
      obtain ⟨k0, v0⟩ := p
      rw [dictSet]
      by_cases h0 : k0 = k1
      · rw [if_pos (by simpa using h0), dictGet_cons, dictGet_cons]
        subst h0
        rw [if_neg h, if_neg h]
      · rw [if_neg (by simpa using h0), dictGet_cons, dictGet_cons]
        by_cases hk : k0 = k
        · rw [if_pos hk, if_pos hk]
        · rw [if_neg hk, if_neg hk]
          exact ih

theorem dictGet_dictUpdate_self {α : Type} (m : List (String × α)) (k : String)
    (f : α → α) (e : α) (he : dictGet m k = some e) :
    dictGet (dictUpdate m k f) k = some (f e) := by
  induction m with
  | nil => simp [dictGet] at he
  | cons p rest ih =>
      obtain ⟨k0, v0⟩ := p
      rw [dictGet_cons] at he
      rw [dictUpdate]
      by_cases h0 : k0 = k
      · rw [if_pos (by simpa using h0), dictGet_cons, if_pos h0]
        rw [if_pos h0] at he
        simp at he
        rw [he]
      · rw [if_neg (by simpa using h0), dictGet_cons, if_neg h0]
        rw [if_neg h0] at he
        exact ih he

theorem dictGet_dictUpdate_ne {α : Type} (m : List (String × α)) (k1 k : String)
    (f : α → α) (h : k1 ≠ k) :
    dictGet (dictUpdate m k1 f) k = dictGet m k := by
  induction m with
  | nil => simp [dictUpdate]
  | cons p rest ih =>
      obtain ⟨k0, v0⟩ := p
      rw [dictUpdate]
      by_cases h0 : k0 = k1
      · rw [if_pos (by simpa using h0), dictGet_cons, dictGet_cons]
        subst h0
        rw [if_neg h, if_neg h]
      · rw [if_neg (by simpa using h0), dictGet_cons, dictGet_cons]
        by_cases hk : k0 = k
        · rw [if_pos hk, if_pos hk]
        · rw [if_neg hk, if_neg hk]
          exact ih

/-- The sg-map entry at this id, if present, is a synthesized default:
name equal to the id and no internet access. -/
def SgDefaultAt (m : List (String × SgMapEntry)) (sgid : String) : Prop :=
  dictGet m sgid = none
    ∨ ∃ e, dictGet m sgid = some e ∧ e.group_name = sgid
        ∧ e.has_internet_access = false

/-- The sg-map entry at this id exists, is a synthesized default, and holds
the given resource entry. -/
def SgAttachedAt (m : List (String × SgMapEntry)) (sgid : String)
    (info : SgResourceInfo) : Prop :=
  ∃ e, dictGet m sgid = some e ∧ e.group_name = sgid
    ∧ e.has_internet_access = false ∧ info ∈ e.resources

theorem sgMapUpsert_get_ne (info : SgResourceInfo) (st : String)
    (acc : List (String × SgMapEntry) × List Relationship) (j sgid : String)
    (h : j ≠ sgid) :
    dictGet (sgMapUpsert info st acc j).1 sgid = dictGet acc.1 sgid := by
  unfold sgMapUpsert
  dsimp only
  rw [dictGet_dictUpdate_ne _ _ _ _ h]
  split
  · rfl
  · exact dictGet_dictSet_ne _ _ _ _ h

theorem sgMapUpsert_get_self (info : SgResourceInfo) (st : String)
    (acc : List (String × SgMapEntry) × List Relationship) (sgid : String) :
    (dictGet acc.1 sgid = none →
      dictGet (sgMapUpsert info st acc sgid).1 sgid
        = some { defaultSgEntry sgid with resources := [info] })
    ∧ ∀ e, dictGet acc.1 sgid = some e →
      dictGet (sgMapUpsert info st acc sgid).1 sgid
        = some { e with resources := e.resources ++ [info] } := by
  constructor
  · intro hnone
    unfold sgMapUpsert
    dsimp only
    rw [hnone]
    simp only [Option.isSome_none, Bool.false_eq_true, if_false]
    have hset := dictGet_dictSet_self acc.1 sgid (defaultSgEntry sgid)
    rw [dictGet_dictUpdate_self _ _ _ _ hset]
    rfl
  · intro e he
    unfold sgMapUpsert
    dsimp only
    rw [he]
    simp only [Option.isSome_some, if_true]
    exact dictGet_dictUpdate_self _ _ _ _ he

theorem sgMapUpsert_preserves_default (info : SgResourceInfo) (st : String)
    (acc : List (String × SgMapEntry) × List Relationship) (j sgid : String)
    (h : SgDefaultAt acc.1 sgid) :
    SgDefaultAt (sgMapUpsert info st acc j).1 sgid := by
  by_cases hj : j = sgid
  · subst hj
    rcases h with hnone | ⟨e, he, h1, h2⟩
    · right
      exact ⟨_, (sgMapUpsert_get_self info st acc j).1 hnone, rfl, rfl⟩
    · right
      exact ⟨_, (sgMapUpsert_get_self info st acc j).2 e he, h1, h2⟩
  · unfold SgDefaultAt
    rw [sgMapUpsert_get_ne info st acc j sgid hj]
    exact h

theorem sgMapUpsert_preserves_attached (info0 info : SgResourceInfo)
    (st : String) (acc : List (String × SgMapEntry) × List Relationship)
    (j sgid : String) (h : SgAttachedAt acc.1 sgid info0) :
    SgAttachedAt (sgMapUpsert info st acc j).1 sgid info0 := by
  by_cases hj : j = sgid
  · subst hj
    obtain ⟨e, he, h1, h2, h3⟩ := h
    exact ⟨_, (sgMapUpsert_get_self info st acc j).2 e he, h1, h2,
      List.mem_append.mpr (Or.inl h3)⟩
  · unfold SgAttachedAt
    rw [sgMapUpsert_get_ne info st acc j sgid hj]
    exact h

theorem sgMapUpsert_attaches (info : SgResourceInfo) (st : String)
    (acc : List (String × SgMapEntry) × List Relationship) (sgid : String)
    (h : SgDefaultAt acc.1 sgid) :
    SgAttachedAt (sgMapUpsert info st acc sgid).1 sgid info := by
  rcases h with hnone | ⟨e, he, h1, h2⟩
  · exact ⟨_, (sgMapUpsert_get_self info st acc sgid).1 hnone, rfl, rfl,
      List.mem_singleton.mpr rfl⟩
  · exact ⟨_, (sgMapUpsert_get_self info st acc sgid).2 e he, h1, h2,
      List.mem_append.mpr (Or.inr (List.mem_singleton.mpr rfl))⟩

theorem innerFold_preserves_default (info : SgResourceInfo) (st : String)
    (sgs : List String) (acc : List (String × SgMapEntry) × List Relationship)
    (sgid : String) (h : SgDefaultAt acc.1 sgid) :
    SgDefaultAt (sgs.foldl (sgMapUpsert info st) acc).1 sgid :=
  foldl_preserve (fun a => SgDefaultAt a.1 sgid) (sgMapUpsert info st)
    (fun a b ha => sgMapUpsert_preserves_default info st a b sgid ha) sgs acc h

theorem innerFold_preserves_attached (info0 info : SgResourceInfo)
    (st : String) (sgs : List String)
    (acc : List (String × SgMapEntry) × List Relationship) (sgid : String)
    (h : SgAttachedAt acc.1 sgid info0) :
    SgAttachedAt (sgs.foldl (sgMapUpsert info st) acc).1 sgid info0 :=
  foldl_preserve (fun a => SgAttachedAt a.1 sgid info0) (sgMapUpsert info st)
    (fun a b ha => sgMapUpsert_preserves_attached info0 info st a b sgid ha)
    sgs acc h

theorem innerFold_attaches (info : SgResourceInfo) (st : String)
    (sgs : List String) (sgid : String) :
    ∀ (acc : List (String × SgMapEntry) × List Relationship),
      SgDefaultAt acc.1 sgid → sgid ∈ sgs →
      SgAttachedAt (sgs.foldl (sgMapUpsert info st) acc).1 sgid info := by
  induction sgs with
  | nil =>
      intro acc h hmem
      simp at hmem
  | cons j rest ih =>
      intro acc h hmem
      rw [List.foldl_cons]
      by_cases hj : j = sgid
      · subst hj
        exact innerFold_preserves_attached info info st rest _ j
          (sgMapUpsert_attaches info st acc j h)
      · rcases List.mem_cons.mp hmem with heq | hmem2
        · exact absurd heq.symm hj
        · exact ih _ (sgMapUpsert_preserves_default info st acc j sgid h) hmem2

theorem seedMap_none (l : List SgRec) (sgid : String) :
    ∀ m, dictGet m sgid = none → (∀ sg ∈ l, sg.group_id ≠ sgid) →
      dictGet (l.foldl (fun m sg => dictSet m sg.group_id (initSgEntry sg)) m)
        sgid = none := by
  induction l with
  | nil =>
      intro m hm _
      exact hm
  | cons sg rest ih =>
      intro m hm hl
      rw [List.foldl_cons]
      refine ih _ ?_ (fun s hs => hl s (List.mem_cons_of_mem _ hs))
      rw [dictGet_dictSet_ne _ _ _ _ (hl sg (List.mem_cons_self _ _))]
      exact hm

theorem ec2Fold_preserves_default (l : List Ec2Rec)
    (acc : List (String × SgMapEntry) × List Relationship) (sgid : String)
    (h : SgDefaultAt acc.1 sgid) :
    SgDefaultAt ((l.foldl (fun acc i =>
      i.security_groups.foldl (sgMapUpsert (ec2SgInfo i) "ec2_instance") acc)
      acc)).1 sgid :=
  foldl_preserve (fun a => SgDefaultAt a.1 sgid) _
    (fun a b ha => innerFold_preserves_default (ec2SgInfo b) "ec2_instance"
      b.security_groups a sgid ha) l acc h

theorem ec2Fold_preserves_attached (info0 : SgResourceInfo) (l : List Ec2Rec)
    (acc : List (String × SgMapEntry) × List Relationship) (sgid : String)
    (h : SgAttachedAt acc.1 sgid info0) :
    SgAttachedAt ((l.foldl (fun acc i =>
      i.security_groups.foldl (sgMapUpsert (ec2SgInfo i) "ec2_instance") acc)
      acc)).1 sgid info0 :=
  foldl_preserve (fun a => SgAttachedAt a.1 sgid info0) _
    (fun a b ha => innerFold_preserves_attached info0 (ec2SgInfo b)
      "ec2_instance" b.security_groups a sgid ha) l acc h

theorem lambdaFold_preserves_default (l : List LambdaRec)
    (acc : List (String × SgMapEntry) × List Relationship) (sgid : String)
    (h : SgDefaultAt acc.1 sgid) :
    SgDefaultAt ((l.foldl (fun acc f =>
      f.security_groups.foldl (sgMapUpsert (lambdaSgInfo f) "lambda_function") acc)
      acc)).1 sgid :=
  foldl_preserve (fun a => SgDefaultAt a.1 sgid) _
    (fun a b ha => innerFold_preserves_default (lambdaSgInfo b) "lambda_function"
      b.security_groups a sgid ha) l acc h

theorem lambdaFold_preserves_attached (info0 : SgResourceInfo)
    (l : List LambdaRec)
    (acc : List (String × SgMapEntry) × List Relationship) (sgid : String)
    (h : SgAttachedAt acc.1 sgid info0) :
    SgAttachedAt ((l.foldl (fun acc f =>
      f.security_groups.foldl (sgMapUpsert (lambdaSgInfo f) "lambda_function") acc)
      acc)).1 sgid info0 :=
  foldl_preserve (fun a => SgAttachedAt a.1 sgid info0) _
    (fun a b ha => innerFold_preserves_attached info0 (lambdaSgInfo b)
      "lambda_function" b.security_groups a sgid ha) l acc h

theorem rdsFold_preserves_attached (info0 : SgResourceInfo) (l : List RdsRec)
    (acc : List (String × SgMapEntry) × List Relationship) (sgid : String)
    (h : SgAttachedAt acc.1 sgid info0) :
    SgAttachedAt ((l.foldl (fun acc i =>
      i.security_groups.foldl (sgMapUpsert (rdsSgInfo i) "rds_instance") acc)
      acc)).1 sgid info0 :=
  foldl_preserve (fun a => SgAttachedAt a.1 sgid info0) _
    (fun a b ha => innerFold_preserves_attached info0 (rdsSgInfo b)
      "rds_instance" b.security_groups a sgid ha) l acc h

/-- C7: for every resource referencing a security-group id that is not
among the enumerated security groups, build_security_group_map succeeds (it
is a total function) and its map holds an entry for that id with
has_internet_access false, group_name equal to the id, and the referencing
resource's entry attached; stated for all three resource kinds. -/
theorem synthesized_sg_defaults (res : ResourceData) (rels : List Relationship)
    (sgid : String)
    (hnot : ∀ sg ∈ res.security_groups, sg.group_id ≠ sgid) :
    (∀ i ∈ res.ec2_instances, sgid ∈ i.security_groups →
      SgAttachedAt (build_security_group_map res rels).1 sgid (ec2SgInfo i))
    ∧ (∀ f ∈ res.lambda_functions, sgid ∈ f.security_groups →
      SgAttachedAt (build_security_group_map res rels).1 sgid (lambdaSgInfo f))
    ∧ (∀ i ∈ res.rds_instances, sgid ∈ i.security_groups →
      SgAttachedAt (build_security_group_map res rels).1 sgid (rdsSgInfo i)) := by
  have hseed : SgDefaultAt
      (res.security_groups.foldl
        (fun m sg => dictSet m sg.group_id (initSgEntry sg)) []) sgid :=
    Or.inl (seedMap_none res.security_groups sgid [] rfl hnot)
  refine ⟨?_, ?_, ?_⟩
  · intro i hi hmem
    obtain ⟨pre, post, hsplit⟩ := List.append_of_mem hi
    unfold build_security_group_map
    dsimp only
    rw [hsplit, List.foldl_append, List.foldl_cons]
    apply rdsFold_preserves_attached
    apply lambdaFold_preserves_attached
    apply ec2Fold_preserves_attached
    exact innerFold_attaches (ec2SgInfo i) "ec2_instance" i.security_groups
      sgid _ (ec2Fold_preserves_default pre _ sgid hseed) hmem
  · intro f hf hmem
    obtain ⟨pre, post, hsplit⟩ := List.append_of_mem hf
    unfold build_security_group_map
    dsimp only
    rw [hsplit, List.foldl_append, List.foldl_cons]
    apply rdsFold_preserves_attached
    apply lambdaFold_preserves_attached
    exact innerFold_attaches (lambdaSgInfo f) "lambda_function"
      f.security_groups sgid _
      (lambdaFold_preserves_default pre _ sgid
        (ec2Fold_preserves_default res.ec2_instances _ sgid hseed)) hmem
  · intro i hi hmem
    obtain ⟨pre, post, hsplit⟩ := List.append_of_mem hi
    unfold build_security_group_map
    dsimp only
    rw [hsplit, List.foldl_append, List.foldl_cons]
    apply rdsFold_preserves_attached
    refine innerFold_attaches (rdsSgInfo i) "rds_instance"
      i.security_groups sgid _ ?_ hmem
    refine foldl_preserve (fun a => SgDefaultAt a.1 sgid) _
      (fun a b ha => innerFold_preserves_default (rdsSgInfo b) "rds_instance"
        b.security_groups a sgid ha) pre _ ?_
    exact lambdaFold_preserves_default res.lambda_functions _ sgid
      (ec2Fold_preserves_default res.ec2_instances _ sgid hseed)

/-- Closed instance for the C7 theorem: the spec's own sg-999 scenario. -/
theorem synthesized_sg_defaults_witness :
    SgAttachedAt
      (build_security_group_map
        { region := none
          ec2_instances := [{ instance_id := "i-7", name := "box",
                              state := none, is_public := false,
                              security_groups := ["sg-999"],
                              iam_instance_profile := none }]
          lambda_functions := []
          s3_buckets := []
          rds_instances := []
          security_groups := [] } []).1 "sg-999"
      (ec2SgInfo { instance_id := "i-7", name := "box", state := none,
                   is_public := false, security_groups := ["sg-999"],
                   iam_instance_profile := none }) :=
  (synthesized_sg_defaults
    { region := none
      ec2_instances := [{ instance_id := "i-7", name := "box", state := none,
                          is_public := false, security_groups := ["sg-999"],
                          iam_instance_profile := none }]
      lambda_functions := []
      s3_buckets := []
      rds_instances := []
      security_groups := [] } [] "sg-999" (by decide)).1
    { instance_id := "i-7", name := "box", state := none, is_public := false,
      security_groups := ["sg-999"], iam_instance_profile := none }
    (by decide) (by decide)

theorem pub_fold_eq (l : List RoleResourceInfo) : ∀ a : Nat,
    l.foldl (fun acc r => if r.is_public == some true then acc + 20 else acc) a
      = a + 20 * l.countP (fun r => r.is_public == some true) := by
  induction l with
  | nil =>
      intro a
      simp
  | cons r rest ih =>
      intro a
      rw [List.foldl_cons, List.countP_cons]
      by_cases h : r.is_public == some true
      · rw [if_pos h, ih, if_pos h]
        omega
      · rw [if_neg h, ih, if_neg h]
        omega

theorem sg_fold_eq (sm : List (String × SgMapEntry)) (l : List String) :
    ∀ a : Nat,
    l.foldl (fun acc sg_id =>
        match dictGet sm sg_id with
        | some sg => if sg.has_internet_access then acc + 15 else acc
        | none => acc) a
      = a + 15 * l.countP (fun s =>
          match dictGet sm s with
          | some sg => sg.has_internet_access
          | none => false) := by
  induction l with
  | nil =>
      intro a
      simp
  | cons j rest ih =>
      intro a
      rw [List.foldl_cons, List.countP_cons]
      cases hj : dictGet sm j with
      | none =>
          simp only [hj]
          rw [ih]
          simp
      | some sg =>
          simp only [hj]
          by_cases hi : sg.has_internet_access
          · rw [if_pos hi, ih]
            simp [hi]
            omega
          · rw [if_neg hi, ih]
            simp [hi]

/-- The role risk heuristic in closed form: 50 for admin, 20 per public
resource, 15 per distinct internet-exposed security group, clamped. -/
theorem calculate_role_risk_eq (rd : RoleMapEntry)
    (sm : List (String × SgMapEntry)) :
    calculate_role_risk rd sm
      = min 100 ((if rd.is_admin then 50 else 0)
          + 20 * rd.resources.countP (fun r => r.is_public == some true)
          + 15 * rd.security_groups.countP (fun s =>
              match dictGet sm s with
              | some sg => sg.has_internet_access
              | none => false)) := by
  unfold calculate_role_risk
  dsimp only
  rw [pub_fold_eq, sg_fold_eq]

/-- C8: every row of the consolidated view carries the risk rank computed
from its underlying role-map entry by the closed formula, clamped to at
most 100 (scores are naturals, so at least 0). -/
theorem consolidated_risk_rank (iam : IamData) (res : ResourceData)
    (rels0 : List Relationship) :
    ∀ row ∈ (build_relationships rels0 iam res).2.consolidated_view.iam_roles,
      ∃ rd, rd ∈ (build_relationships rels0 iam res).2.role_mappings.map
          (fun p => p.2)
        ∧ rd.resources ≠ []
        ∧ row = mkRoleView rd
            (build_relationships rels0 iam res).2.security_group_mappings
        ∧ row.risk_level
            = min 100 ((if rd.is_admin then 50 else 0)
                + 20 * rd.resources.countP (fun r => r.is_public == some true)
                + 15 * rd.security_groups.countP (fun s =>
                    match dictGet (build_relationships rels0 iam
                        res).2.security_group_mappings s with
                    | some sg => sg.has_internet_access
                    | none => false))
        ∧ row.risk_level ≤ 100 := by
  intro row hrow
  have hrow2 : row ∈ sortByDesc (fun v => v.risk_level)
      (((build_relationships rels0 iam res).2.role_mappings.filter
          (fun p => p.2.resources ≠ [])).map
        (fun p => mkRoleView p.2
          (build_relationships rels0 iam res).2.security_group_mappings)) := hrow
  have hrow3 := (sortByDesc_perm (fun v : RoleView => v.risk_level) _).mem_iff.mp hrow2
  obtain ⟨p, hp, hpe⟩ := List.mem_map.mp hrow3
  have hpf := List.mem_filter.mp hp
  refine ⟨p.2, List.mem_map_of_mem _ hpf.1, by simpa using hpf.2, hpe.symm, ?_, ?_⟩
  · rw [← hpe]
    show calculate_role_risk p.2 _ = _
    exact calculate_role_risk_eq p.2 _
  · rw [← hpe]
    show calculate_role_risk p.2 _ ≤ 100
    rw [calculate_role_risk_eq]
    exact min_le_left _ _

/-- Closed instance for the C8 theorem at the one-role build's single row. -/
theorem consolidated_risk_rank_witness :
    ∃ rd, rd ∈ (build_relationships [] c3Iam c3Res).2.role_mappings.map
        (fun p => p.2)
      ∧ rd.resources ≠ []
      ∧ mkRoleView
          { role_name := "app", role_arn := "arn:aws:iam::1:role/app",
            role_type := none, is_admin := false, attached_policies := [],
            resources := [{ resource_type := "ec2_instance",
                            resource_id := "i-9", resource_name := "api",
                            is_public := some false, runtime := none,
                            security_groups := [] }],
            security_groups := [] }
          (build_relationships [] c3Iam c3Res).2.security_group_mappings
        = mkRoleView rd
            (build_relationships [] c3Iam c3Res).2.security_group_mappings
      ∧ (mkRoleView
          { role_name := "app", role_arn := "arn:aws:iam::1:role/app",
            role_type := none, is_admin := false, attached_policies := [],
            resources := [{ resource_type := "ec2_instance",
                            resource_id := "i-9", resource_name := "api",
                            is_public := some false, runtime := none,
                            security_groups := [] }],
            security_groups := [] }
          (build_relationships [] c3Iam c3Res).2.security_group_mappings).risk_level
          = min 100 ((if rd.is_admin then 50 else 0)
              + 20 * rd.resources.countP (fun r => r.is_public == some true)
              + 15 * rd.security_groups.countP (fun s =>
                  match dictGet (build_relationships [] c3Iam
                      c3Res).2.security_group_mappings s with
                  | some sg => sg.has_internet_access
                  | none => false))
      ∧ (mkRoleView
          { role_name := "app", role_arn := "arn:aws:iam::1:role/app",
            role_type := none, is_admin := false, attached_policies := [],
            resources := [{ resource_type := "ec2_instance",
                            resource_id := "i-9", resource_name := "api",
                            is_public := some false, runtime := none,
                            security_groups := [] }],
            security_groups := [] }
          (build_relationships [] c3Iam c3Res).2.security_group_mappings).risk_level
          ≤ 100 :=
  consolidated_risk_rank c3Iam c3Res []
    (mkRoleView
      { role_name := "app", role_arn := "arn:aws:iam::1:role/app",
        role_type := none, is_admin := false, attached_policies := [],
        resources := [{ resource_type := "ec2_instance",
                        resource_id := "i-9", resource_name := "api",
                        is_public := some false, runtime := none,
                        security_groups := [] }],
        security_groups := [] }
      (build_relationships [] c3Iam c3Res).2.security_group_mappings)
    (by decide)
